import Mathlib

/-!
# Connection manager (`src/utils/WebSocketServerClass.js`)

A shallow embedding of the `WebSocketServerClass` connection manager and proofs about it.

Conventions of the embedding

* The instance fields (`server`, `clients`, `eventListeners`, `authHandler`, ...) form
  `ServerState`; every method is a function from the state before the call to an `Outcome`:
  the state after the call, the transport / callback calls it made (`effects`, oldest first)
  and what the call returned or threw (`result`).
* A JavaScript exception is `Except.error`; `try { .. } catch` is a `match` on it.
* `Map` is an insertion-ordered association list (`mapGet`, `mapSet`, `mapDelete`).
* The `ws` transport and the application callbacks are the environment: a socket carries its
  `readyState` and whether `send` raises on a given payload, `JSON.stringify` and the
  behaviour of each subscribed callback are given by `Env`.
* The values of `uuidv4()` and `Date.now()` are parameters of `handleNewConnection`.
* Transport signals (`connection`, socket `close` / `error`, server `error`, the callback of
  `server.close`) are delivered one at a time, never in the middle of a method.
-/

namespace WebSocketServerClass

/-! ## JavaScript values -/

/-- JavaScript values, as far as the program inspects them; `buffer` is a Node `Buffer`, given
by its bytes. -/
inductive JsValue where
  | undefined
  | null
  | bool (b : Bool)
  | number (n : Int)
  | nan
  | string (s : String)
  | object (fields : List (String × JsValue))
  | array (items : List JsValue)
  | func (ref : Nat)
  | buffer (bytes : List Nat)

/-- Truthiness of a value: what `!v` and `v || w` test. -/
def JsValue.truthy : JsValue → Bool
  | .undefined => false
  | .null => false
  | .bool b => b
  | .number n => n != 0
  | .nan => false
  | .string s => s != ""
  | .object _ => true
  | .array _ => true
  | .func _ => true
  | .buffer _ => true

/-- The test `typeof v === "object"`: objects, arrays, `Buffer`s and `null`. -/
def JsValue.typeofObject : JsValue → Bool
  | .null => true
  | .object _ => true
  | .array _ => true
  | .buffer _ => true
  | _ => false

/-- A plain object: its own enumerable properties in creation order. -/
abbrev JsObject := List (String × JsValue)

/-- Property read `o[k]` (`none` is `undefined`). -/
def objGet : JsObject → String → Option JsValue
  | [], _ => none
  | (k', v) :: rest, k => if k' = k then some v else objGet rest k

/-- Property write `o[k] = v`: an existing key keeps its place, a new key goes last. -/
def objSet : JsObject → String → JsValue → JsObject
  | [], k, v => [(k, v)]
  | (k', v') :: rest, k, v => if k' = k then (k, v) :: rest else (k', v') :: objSet rest k v

/-- Copying the properties of `src` onto `target`, as one `...src` of an object literal. -/
def objAssign (target src : JsObject) : JsObject :=
  src.foldl (fun acc kv => objSet acc kv.1 kv.2) target

/-- The object literal `{ ...a, ...b }`. -/
def objSpread (a b : JsObject) : JsObject :=
  objAssign (objAssign [] a) b

/-! ## `Map` -/

/-- The method `Map.prototype.get`. -/
def mapGet {V : Type} : List (String × V) → String → Option V
  | [], _ => none
  | (k', v) :: rest, k => if k' = k then some v else mapGet rest k

/-- The method `Map.prototype.set`: an existing key keeps its place, a new key goes last. -/
def mapSet {V : Type} : List (String × V) → String → V → List (String × V)
  | [], k, v => [(k, v)]
  | (k', v') :: rest, k, v => if k' = k then (k, v) :: rest else (k', v') :: mapSet rest k v

/-- The method `Map.prototype.delete`. -/
def mapDelete {V : Type} (m : List (String × V)) (k : String) : List (String × V) :=
  m.filter (fun e => e.1 ≠ k)

/-- The keys of a `Map`, in insertion order. -/
def mapKeys {V : Type} (m : List (String × V)) : List String :=
  m.map Prod.fst

/-! ## Sockets, registry entries and the instance state -/

/-- The `readyState` of a `ws` socket (`WebSocket.OPEN` is `OPEN`). -/
inductive ReadyState where
  | CONNECTING
  | OPEN
  | CLOSING
  | CLOSED
  deriving DecidableEq, Repr

/-- A transport socket as the manager sees it: its `readyState`, and whether `send` raises
when handed a given payload (the transport decides that, not the manager). -/
structure Socket where
  readyState : ReadyState
  sendThrows : JsValue → Bool

/-- The record stored per connection by `_handleNewConnection` (`clientInfo`). -/
structure ClientInfo where
  socket : Socket
  ip : Option String
  connectTime : Nat
  metadata : JsObject

/-- The object returned by `getClientInfo`. -/
structure ClientView where
  id : String
  ip : Option String
  connectTime : Nat
  metadata : JsObject

/-- A subscribed callback, identified by reference (`cb !== callback` compares references). -/
abbrev HandlerId := Nat

/-- The upgrade request, as far as the manager reads it: `request.socket.remoteAddress` and
`request.headers["x-forwarded-for"]` (`none` is `undefined`). -/
structure Request where
  remoteAddress : Option String
  forwardedFor : Option String

/-- What `authHandler(request)` does: return a value or throw. -/
abbrev AuthHandler := Request → Except JsValue JsValue

/-- The `WebSocket.Server` held in `this.server`; whether it is bound is the transport's
business and is not read by the manager. -/
structure Listener where
  port : Nat
  path : String
  bound : Bool

/-- The fields of a `WebSocketServerClass` instance. -/
structure ServerState where
  port : Nat
  path : String
  server : Option Listener
  clients : List (String × ClientInfo)
  eventListeners : List (String × List HandlerId)
  authHandler : Option AuthHandler
  allowCORS : Bool

/-- The state set up by the constructor. -/
def ServerState.new (port : Nat) (path : String) (authHandler : Option AuthHandler)
    (allowCORS : Bool) : ServerState :=
  { port := port, path := path, server := none, clients := [],
    eventListeners :=
      [("connection", []), ("close", []), ("error", []), ("message", []), ("listening", [])],
    authHandler := authHandler, allowCORS := allowCORS }

/-- The payload of an event, as handed to the subscribed callbacks. -/
inductive EventData where
  | connection (clientId : String) (ip : Option String) (request : Request)
  | message (clientId : String) (message : JsValue) (raw : JsValue)
  | close (clientId : String) (code : Nat) (reason : String)
  | socketError (clientId : String) (error : JsValue)
  | serverError (error : JsValue)
  | listening (port : Nat) (path : String)
  | serverStopped

/-- A call made on the environment. A socket is named by the id of its connection. -/
inductive Effect where
  /-- The call `socket.send(payload)`; `threw` tells whether it raised. -/
  | send (clientId : String) (payload : JsValue) (threw : Bool)
  /-- The call `socket.close(code, reason)`. -/
  | close (clientId : String) (code : Nat) (reason : String)
  /-- The construction `new WebSocket.Server({ port, path })`. -/
  | listen (port : Nat) (path : String)
  /-- The call `this.server.close(cb)`. -/
  | serverClose
  /-- The invocation `callback(data)` of a subscribed callback, in the state `before`. -/
  | callback (cb : HandlerId) (data : EventData) (before : ServerState)

/-- What a call leaves behind: the state after it, the calls it made on the environment
(oldest first) and its return value, or the exception it raised. -/
structure Outcome (α : Type) where
  state : ServerState
  effects : List Effect
  result : Except JsValue α

/-! ## Application-side behaviour -/

/-- What a subscribed callback does: a sequence of calls to the public operations of the
manager, each continuing with the value the call returned, so a callback may branch on what
it observes. The application reaches the instance through these operations only; it does not
write to `clients` or `eventListeners` directly. `start` and `stop` are asynchronous
handshakes and are not run from inside a callback. -/
inductive Script where
  | done
  | throw (error : JsValue)
  | onEvent (event : String) (cb : HandlerId) (k : Script)
  | off (event : String) (cb : HandlerId) (k : Script)
  | sendTo (clientId : String) (data : JsValue) (k : Bool → Script)
  | broadcast (data : JsValue) (excludeClientId : Option String)
      (k : Except JsValue Nat → Script)
  | getClientCount (k : Nat → Script)
  | getClientIds (k : List String → Script)
  | getClientInfo (clientId : String) (k : Option ClientView → Script)
  | setClientMetadata (clientId : String) (metadata : JsObject) (k : Bool → Script)
  | disconnectClient (clientId : String) (code : Nat) (reason : String) (k : Bool → Script)

/-- The environment of the manager: the built-in `JSON.stringify` (which may throw), what
each subscribed callback does with the event data it is handed, and the constructor
`new WebSocket.Server({ port, path })`, which returns a listener or throws. -/
structure Env where
  stringify : JsValue → Except JsValue JsValue
  handler : HandlerId → EventData → Script
  newServer : Nat → String → Except JsValue Listener

/-! ## Public operations -/

/-- The expression `typeof data === "object" ? JSON.stringify(data) : data`. -/
def serialize (env : Env) (data : JsValue) : Except JsValue JsValue :=
  if data.typeofObject then env.stringify data else .ok data

/-- The method `on(event, callback)`. The lists are looked up among the own properties of
`this.eventListeners`: an event name that `Object.prototype` defines as well (`toString`,
`constructor`, ...) makes the JavaScript call raise a `TypeError` and is outside the model. -/
def onEvent (event : String) (callback : HandlerId) (st : ServerState) : ServerState :=
  match mapGet st.eventListeners event with
  | none => { st with eventListeners := mapSet st.eventListeners event [callback] }
  | some cbs => { st with eventListeners := mapSet st.eventListeners event (cbs ++ [callback]) }

/-- The method `off(event, callback)`; for the event names see `onEvent`. -/
def off (event : String) (callback : HandlerId) (st : ServerState) : ServerState :=
  match mapGet st.eventListeners event with
  | none => st
  | some cbs =>
    { st with eventListeners :=
        mapSet st.eventListeners event (cbs.filter (fun cb => cb ≠ callback)) }

/-- The method `sendTo(clientId, data)`. -/
def sendTo (env : Env) (clientId : String) (data : JsValue) (st : ServerState) :
    Outcome Bool :=
  match mapGet st.clients clientId with
  | none => ⟨st, [], .ok false⟩
  | some client =>
    if client.socket.readyState ≠ ReadyState.OPEN then ⟨st, [], .ok false⟩
    else
      match serialize env data with
      | .error _ => ⟨st, [], .ok false⟩
      | .ok payload =>
        if client.socket.sendThrows payload then
          ⟨st, [Effect.send clientId payload true], .ok false⟩
        else
          ⟨st, [Effect.send clientId payload false], .ok true⟩

/-- The test `excludeClientId && clientId === excludeClientId` of `broadcast`. -/
def isExcluded (excludeClientId : Option String) (clientId : String) : Bool :=
  match excludeClientId with
  | none => false
  | some x => x != "" && clientId == x

/-- The `for` loop of `broadcast` over the entries of `this.clients`, from `sentCount`. -/
def broadcastLoop (payload : JsValue) (excludeClientId : Option String) :
    List (String × ClientInfo) → Nat → Nat × List Effect
  | [], sentCount => (sentCount, [])
  | (clientId, client) :: rest, sentCount =>
    if isExcluded excludeClientId clientId then
      broadcastLoop payload excludeClientId rest sentCount
    else if client.socket.readyState = ReadyState.OPEN then
      if client.socket.sendThrows payload then
        let r := broadcastLoop payload excludeClientId rest sentCount
        (r.1, Effect.send clientId payload true :: r.2)
      else
        let r := broadcastLoop payload excludeClientId rest (sentCount + 1)
        (r.1, Effect.send clientId payload false :: r.2)
    else
      broadcastLoop payload excludeClientId rest sentCount

/-- The method `broadcast(data, excludeClientId = null)`; the serialization of the payload
is outside the `try` and so raises to the caller. -/
def broadcast (env : Env) (data : JsValue) (excludeClientId : Option String)
    (st : ServerState) : Outcome Nat :=
  match serialize env data with
  | .error e => ⟨st, [], .error e⟩
  | .ok payload =>
    let r := broadcastLoop payload excludeClientId st.clients 0
    ⟨st, r.2, .ok r.1⟩

/-- The method `getClientCount()`. -/
def getClientCount (st : ServerState) : Nat :=
  st.clients.length

/-- The method `getClientIds()`. -/
def getClientIds (st : ServerState) : List String :=
  mapKeys st.clients

/-- The method `getClientInfo(clientId)` (`none` is `null`). -/
def getClientInfo (clientId : String) (st : ServerState) : Option ClientView :=
  match mapGet st.clients clientId with
  | none => none
  | some client =>
    some { id := clientId, ip := client.ip, connectTime := client.connectTime,
           metadata := client.metadata }

/-- The method `setClientMetadata(clientId, metadata)`; the assignment to `client.metadata`
updates the entry stored under `clientId` in place. -/
def setClientMetadata (clientId : String) (metadata : JsObject) (st : ServerState) :
    Outcome Bool :=
  match mapGet st.clients clientId with
  | none => ⟨st, [], .ok false⟩
  | some client =>
    let updated : ClientInfo := { client with metadata := objSpread client.metadata metadata }
    ⟨{ st with clients := mapSet st.clients clientId updated }, [], .ok true⟩

/-- The status codes the `ws` transport accepts in `socket.close(code, reason)`. -/
def isValidStatusCode (code : Nat) : Bool :=
  (1000 ≤ code && code ≤ 1014 && code != 1004 && code != 1005 && code != 1006) ||
    (3000 ≤ code && code ≤ 4999)

/-- The call `socket.close(code, reason)` of the `ws` transport: the socket after the call
and the exception raised, if any. An `OPEN` socket starts closing and then has its close
frame validated (an invalid status code or a reason over 123 bytes raises); a socket that is
already closing or closed is left alone. -/
def Socket.close (s : Socket) (code : Nat) (reason : String) : Socket × Option JsValue :=
  match s.readyState with
  | ReadyState.CLOSED => (s, none)
  | ReadyState.CLOSING => (s, none)
  | ReadyState.CONNECTING => ({ s with readyState := ReadyState.CLOSING }, none)
  | ReadyState.OPEN =>
    let s1 : Socket := { s with readyState := ReadyState.CLOSING }
    if !isValidStatusCode code then
      (s1, some (JsValue.string "First argument must be a valid error code number"))
    else if 123 < reason.utf8ByteSize then
      (s1, some (JsValue.string "The message must not be greater than 123 bytes"))
    else (s1, none)

/-- The method `disconnectClient(clientId, code = 1000, reason = "Disconnected by server")`. -/
def disconnectClient (clientId : String) (code : Nat) (reason : String) (st : ServerState) :
    Outcome Bool :=
  match mapGet st.clients clientId with
  | none => ⟨st, [], .ok false⟩
  | some client =>
    if client.socket.readyState = ReadyState.OPEN then
      let c := client.socket.close code reason
      let updated : ClientInfo := { client with socket := c.1 }
      let st1 : ServerState := { st with clients := mapSet st.clients clientId updated }
      match c.2 with
      | some _ => ⟨st1, [Effect.close clientId code reason], .ok false⟩
      | none => ⟨st1, [Effect.close clientId code reason], .ok true⟩
    else ⟨st, [], .ok true⟩

/-! ## Event dispatch -/

/-- Running the body of a subscribed callback: each call goes to the public operation of the
same name; an exception of `broadcast` is handed to the continuation (the callback may catch
it), `Script.throw` raises out of the callback. -/
def runScript (env : Env) : Script → ServerState → Outcome Unit
  | .done, st => ⟨st, [], .ok ()⟩
  | .throw e, st => ⟨st, [], .error e⟩
  | .onEvent event cb k, st => runScript env k (onEvent event cb st)
  | .off event cb k, st => runScript env k (off event cb st)
  | .sendTo clientId data k, st =>
    let r := sendTo env clientId data st
    match r.result with
    | .error e => ⟨r.state, r.effects, .error e⟩
    | .ok b =>
      let r2 := runScript env (k b) r.state
      ⟨r2.state, r.effects ++ r2.effects, r2.result⟩
  | .broadcast data excludeClientId k, st =>
    let r := broadcast env data excludeClientId st
    let r2 := runScript env (k r.result) r.state
    ⟨r2.state, r.effects ++ r2.effects, r2.result⟩
  | .getClientCount k, st => runScript env (k (getClientCount st)) st
  | .getClientIds k, st => runScript env (k (getClientIds st)) st
  | .getClientInfo clientId k, st => runScript env (k (getClientInfo clientId st)) st
  | .setClientMetadata clientId metadata k, st =>
    let r := setClientMetadata clientId metadata st
    match r.result with
    | .error e => ⟨r.state, r.effects, .error e⟩
    | .ok b =>
      let r2 := runScript env (k b) r.state
      ⟨r2.state, r.effects ++ r2.effects, r2.result⟩
  | .disconnectClient clientId code reason k, st =>
    let r := disconnectClient clientId code reason st
    match r.result with
    | .error e => ⟨r.state, r.effects, .error e⟩
    | .ok b =>
      let r2 := runScript env (k b) r.state
      ⟨r2.state, r.effects ++ r2.effects, r2.result⟩

/-- The pass `callbacks.forEach((callback) => callback(data))`: the callbacks of the array
as it was when the pass began, in order; an exception raised by a callback ends the pass and
propagates. -/
def forEachCallback (env : Env) (data : EventData) :
    List HandlerId → ServerState → Outcome Unit
  | [], st => ⟨st, [], .ok ()⟩
  | cb :: rest, st =>
    let r := runScript env (env.handler cb data) st
    match r.result with
    | .error e => ⟨r.state, Effect.callback cb data st :: r.effects, .error e⟩
    | .ok _ =>
      let r2 := forEachCallback env data rest r.state
      ⟨r2.state, Effect.callback cb data st :: (r.effects ++ r2.effects), r2.result⟩

/-- The method `_triggerEvent(event, data)`. -/
def triggerEvent (env : Env) (event : String) (data : EventData) (st : ServerState) :
    Outcome Unit :=
  match mapGet st.eventListeners event with
  | none => ⟨st, [], .ok ()⟩
  | some callbacks => forEachCallback env data callbacks st

/-! ## Accepting and closing connections -/

/-- The characters removed by `String.prototype.trim`: white space and line terminators. -/
def isJsWhitespace (c : Char) : Bool :=
  let n := c.toNat
  n = 0x09 || n = 0x0A || n = 0x0B || n = 0x0C || n = 0x0D || n = 0x20 || n = 0xA0 ||
    n = 0x1680 || (0x2000 ≤ n && n ≤ 0x200A) || n = 0x2028 || n = 0x2029 || n = 0x202F ||
    n = 0x205F || n = 0x3000 || n = 0xFEFF

/-- The method `String.prototype.trim`. -/
def jsTrim (s : String) : String :=
  String.mk ((s.data.dropWhile isJsWhitespace).reverse.dropWhile isJsWhitespace).reverse

/-- The expression `header.split(",")[0]`: the text before the first comma. -/
def firstCommaEntry (header : String) : String :=
  String.mk (header.data.takeWhile (fun c => c ≠ ','))

/-- The expression `request.headers["x-forwarded-for"]?.split(",")[0].trim()`. -/
def forwardedAddress (request : Request) : Option String :=
  match request.forwardedFor with
  | none => none
  | some header => some (jsTrim (firstCommaEntry header))

/-- The address recorded for a connection:
`request.socket.remoteAddress || request.headers["x-forwarded-for"]?.split(",")[0].trim()`. -/
def clientIp (request : Request) : Option String :=
  match request.remoteAddress with
  | none => forwardedAddress request
  | some address => if address ≠ "" then some address else forwardedAddress request

/-- The part of `_handleNewConnection` after the authentication check: the entry is stored
under `clientId`, the socket signals are wired and the `connection` event is triggered. -/
def acceptConnection (env : Env) (clientId : String) (now : Nat) (socket : Socket)
    (request : Request) (st : ServerState) : Outcome Unit :=
  let clientInfo : ClientInfo :=
    { socket := socket, ip := clientIp request, connectTime := now, metadata := [] }
  let st1 : ServerState := { st with clients := mapSet st.clients clientId clientInfo }
  triggerEvent env "connection" (EventData.connection clientId (clientIp request) request) st1

/-- The method `_handleNewConnection(socket, request)`; `clientId` is the value returned by
`uuidv4()` and `now` the value of `Date.now()`. -/
def handleNewConnection (env : Env) (clientId : String) (now : Nat) (socket : Socket)
    (request : Request) (st : ServerState) : Outcome Unit :=
  match st.authHandler with
  | none => acceptConnection env clientId now socket request st
  | some authHandler =>
    match authHandler request with
    | .ok authResult =>
      if !authResult.truthy then
        let c := socket.close 4401 "Unauthorized"
        match c.2 with
        | none => ⟨st, [Effect.close clientId 4401 "Unauthorized"], .ok ()⟩
        | some _ =>
          let c2 := c.1.close 4500 "Authentication error"
          ⟨st, [Effect.close clientId 4401 "Unauthorized",
                Effect.close clientId 4500 "Authentication error"],
            match c2.2 with
            | none => .ok ()
            | some e => .error e⟩
      else acceptConnection env clientId now socket request st
    | .error _ =>
      let c := socket.close 4500 "Authentication error"
      ⟨st, [Effect.close clientId 4500 "Authentication error"],
        match c.2 with
        | none => .ok ()
        | some e => .error e⟩

/-- The expression `reason?.toString() || ""` of the socket `close` listener. -/
def closeReason (reason : Option String) : String :=
  match reason with
  | none => ""
  | some text => if text ≠ "" then text else ""

/-- The socket `close` listener wired by `_handleNewConnection` for the connection
`clientId`. -/
def socketOnClose (env : Env) (clientId : String) (code : Nat) (reason : Option String)
    (st : ServerState) : Outcome Unit :=
  let st1 : ServerState := { st with clients := mapDelete st.clients clientId }
  triggerEvent env "close" (EventData.close clientId code (closeReason reason)) st1

/-- The socket `error` listener wired by `_handleNewConnection` for the connection
`clientId`. -/
def socketOnError (env : Env) (clientId : String) (error : JsValue) (st : ServerState) :
    Outcome Unit :=
  triggerEvent env "error" (EventData.socketError clientId error) st

/-! ## Starting and stopping -/

/-- The state of a promise; once settled it stays as it is. -/
inductive PromiseState where
  | pending
  | fulfilled
  | rejected (reason : JsValue)

/-- The call `resolve()`. -/
def PromiseState.resolve : PromiseState → PromiseState
  | .pending => .fulfilled
  | p => p

/-- The call `reject(error)`. -/
def PromiseState.reject (error : JsValue) : PromiseState → PromiseState
  | .pending => .rejected error
  | p => p

/-- What `start` / `stop` leave behind: the state, the calls made on the environment and
the state of the returned promise. -/
structure Handshake where
  state : ServerState
  effects : List Effect
  promise : PromiseState

/-- The method `start()`: the executor of the returned promise, which runs at the call. -/
def start (env : Env) (st : ServerState) : Handshake :=
  match env.newServer st.port st.path with
  | .error error => ⟨st, [Effect.listen st.port st.path], PromiseState.pending.reject error⟩
  | .ok server =>
    let st1 : ServerState := { st with server := some server }
    let r := triggerEvent env "listening" (EventData.listening st.port st.path) st1
    match r.result with
    | .error error =>
      ⟨r.state, Effect.listen st.port st.path :: r.effects, PromiseState.pending.reject error⟩
    | .ok _ =>
      ⟨r.state, Effect.listen st.port st.path :: r.effects, PromiseState.pending.resolve⟩

/-- The server `error` listener wired by `start()`, run when the transport reports an error
after `start()` has returned `h`; an exception of a subscribed callback escapes before
`reject(error)` is reached. -/
def serverOnError (env : Env) (error : JsValue) (h : Handshake) : Handshake :=
  let r := triggerEvent env "error" (EventData.serverError error) h.state
  match r.result with
  | .error _ => ⟨r.state, h.effects ++ r.effects, h.promise⟩
  | .ok _ => ⟨r.state, h.effects ++ r.effects, h.promise.reject error⟩

/-- How the transport answers `this.server.close(cb)`: it never calls back, or it calls back
with an error or without one. -/
inductive CloseResult where
  | never
  | called (error : Option JsValue)

/-- The `for` loop of `stop()` over the entries of `this.clients`: the close calls made and
the exception that ended the loop, if any (there is none, see `stopLoop_no_throw`: the
transport accepts code 1000 with this reason). -/
def stopLoop : List (String × ClientInfo) → List Effect × Option JsValue
  | [] => ([], none)
  | (clientId, client) :: rest =>
    if client.socket.readyState = ReadyState.OPEN then
      match (client.socket.close 1000 "Server shutting down").2 with
      | some e => ([Effect.close clientId 1000 "Server shutting down"], some e)
      | none =>
        let r := stopLoop rest
        (Effect.close clientId 1000 "Server shutting down" :: r.1, r.2)
    else stopLoop rest

/-- The method `stop()`, with the answer of the transport to `this.server.close(cb)`. -/
def stop (env : Env) (closeResult : CloseResult) (st : ServerState) : Handshake :=
  match st.server with
  | none => ⟨st, [], PromiseState.pending.resolve⟩
  | some _ =>
    let loop := stopLoop st.clients
    match loop.2 with
    | some e => ⟨st, loop.1, PromiseState.pending.reject e⟩
    | none =>
      let st1 : ServerState := { st with clients := [] }
      match closeResult with
      | .never => ⟨st1, loop.1 ++ [Effect.serverClose], PromiseState.pending⟩
      | .called (some error) =>
        ⟨st1, loop.1 ++ [Effect.serverClose], PromiseState.pending.reject error⟩
      | .called none =>
        let r := triggerEvent env "close" EventData.serverStopped st1
        match r.result with
        | .error _ => ⟨r.state, loop.1 ++ Effect.serverClose :: r.effects, PromiseState.pending⟩
        | .ok _ =>
          ⟨{ r.state with server := none }, loop.1 ++ Effect.serverClose :: r.effects,
            PromiseState.pending.resolve⟩

/-! ## Inbound messages -/

/-- The decoding built-ins used by the socket `message` listener: `JSON.parse`, which returns
the decoded value or throws, and `Buffer.prototype.toString`. -/
structure Decoding where
  parse : String → Except JsValue JsValue
  bufferToString : List Nat → String

/-- The decoding step of the socket `message` listener: a string or `Buffer` is parsed as
JSON and, when `JSON.parse` throws, replaced by its text; any other value is passed on. -/
def parseMessage (dec : Decoding) (message : JsValue) : JsValue :=
  match message with
  | .string text =>
    match dec.parse text with
    | .ok value => value
    | .error _ => .string text
  | .buffer bytes =>
    match dec.parse (dec.bufferToString bytes) with
    | .ok value => value
    | .error _ => .string (dec.bufferToString bytes)
  | other => other

/-- The socket `message` listener wired by `_handleNewConnection` for the connection
`clientId`. -/
def socketOnMessage (env : Env) (dec : Decoding) (clientId : String) (message : JsValue)
    (st : ServerState) : Outcome Unit :=
  triggerEvent env "message"
    (EventData.message clientId (parseMessage dec message) message) st

/-! ## Tenants and users (`src/models/Tenant.js`, `src/models/User.js`, `src/server.js`) -/

/-- One record of the `Tenant` table. -/
def tenantRecord (id name domain logo theme : String)
    (analytics userManagement chat notifications : Bool) (primaryColor : String) : JsValue :=
  .object
    [("id", .string id), ("name", .string name), ("domain", .string domain),
     ("logo", .string logo),
     ("config", .object
       [("theme", .string theme),
        ("features", .object
          [("analytics", .bool analytics), ("userManagement", .bool userManagement),
           ("chat", .bool chat), ("notifications", .bool notifications)]),
        ("primaryColor", .string primaryColor)])]

/-- The own properties of the object literal `Tenant`. -/
def Tenant : JsObject :=
  [("acme", tenantRecord "acme" "ACME Corporation" "acme.example.com" "🏢" "light"
      true true true true "#3b82f6"),
   ("startx", tenantRecord "startx" "StartX Ventures" "startx.example.com" "🚀" "dark"
      true true false false "#10b981"),
   ("quantum", tenantRecord "quantum" "Quantum Industries" "quantum.example.com" "⚛️" "dark"
      true false true true "#8b5cf6")]

/-- The methods every plain object inherits from `Object.prototype`. -/
def objectPrototypeMethods : List String :=
  ["constructor", "__defineGetter__", "__defineSetter__", "hasOwnProperty",
   "__lookupGetter__", "__lookupSetter__", "isPrototypeOf", "propertyIsEnumerable",
   "toString", "valueOf", "toLocaleString"]

/-- What reading `o[k]` on a plain object finds on `Object.prototype` when `o` has no own
property `k`: one of the inherited methods (a function), or for `__proto__` the prototype
object itself, which has no enumerable property. -/
def inheritedMember (k : String) : Option JsValue :=
  if k = "__proto__" then some (.object [])
  else if k ∈ objectPrototypeMethods then some (.func (objectPrototypeMethods.indexOf k))
  else none

/-- The property read `o[k]` on a plain object (an object literal or parsed JSON): an own
property first, then `Object.prototype`, else `undefined`. -/
def memberOf (o : JsObject) (k : String) : JsValue :=
  match objGet o k with
  | some v => v
  | none =>
    match inheritedMember k with
    | some v => v
    | none => .undefined

/-- The function `fetchTenantData(tenantId)`: the value its promise resolves to,
`Tenant[tenantId] || Tenant["acme"]`. -/
def fetchTenantData (tenantId : String) : JsValue :=
  if (memberOf Tenant tenantId).truthy then memberOf Tenant tenantId
  else memberOf Tenant "acme"

/-- An HTTP response sent with `res.status(..).json(..)`. -/
structure Response where
  status : Nat
  body : JsValue

/-- The body `{ error: message }`. -/
def errorBody (message : String) : JsValue :=
  .object [("error", .string message)]

/-- What a middleware does with a request: answer it, or attach `req.tenant` (for
`checkFeature`: leave it in place) and call `next()`. -/
inductive MiddlewareResult where
  | respond (response : Response)
  | next (tenant : JsValue)

/-- The middleware `tenantMiddleware`; `header` is `req.headers["x-tenant-id"]` and `query`
is `req.query.tenantId`. -/
def tenantMiddleware (header query : JsValue) : MiddlewareResult :=
  let tenantId := if header.truthy then header else query
  match tenantId with
  | .string id =>
    if id = "" then .respond ⟨400, errorBody "Tenant ID is required"⟩
    else if !(fetchTenantData id).truthy then .respond ⟨404, errorBody "Tenant not found"⟩
    else .next (fetchTenantData id)
  | _ => .respond ⟨400, errorBody "Tenant ID is required"⟩

/-- The optional read `v?.[k]`, for the member names the routes read (`config`, `features`
and the feature names): `undefined` on `null` and `undefined`, the member of a plain object,
and `undefined` on the other values, none of which defines such a member. -/
def optionalMember (v : JsValue) (k : String) : JsValue :=
  match v with
  | .object fields => memberOf fields k
  | _ => .undefined

/-- The middleware `checkFeature(feature)` applied to a request carrying `tenant`. -/
def checkFeature (feature : String) (tenant : JsValue) : MiddlewareResult :=
  if !(optionalMember (optionalMember (optionalMember tenant "config") "features")
      feature).truthy then
    .respond ⟨403, errorBody (feature ++ " not enabled")⟩
  else .next tenant

/-- The callback `({ password, ...user }) => user`: the own properties other than
`password`, in their order. -/
def omitPassword (user : JsObject) : JsObject :=
  user.filter (fun kv => kv.1 ≠ "password")

/-- The handler of `GET /api/users` over the records of the `User` list. -/
def usersGetHandler (users : List JsObject) : Response :=
  ⟨200, .array (users.map (fun user => .object (omitPassword user)))⟩

/-- The handler of `POST /api/users`: the response and the `User` list after the request;
`body` is the parsed JSON body and `password` the generated
`Math.random().toString(36).slice(-8)`. -/
def usersPostHandler (body : JsObject) (password : String) (users : List JsObject) :
    Response × List JsObject :=
  let name := memberOf body "name"
  let email := memberOf body "email"
  if !name.truthy || !email.truthy then (⟨400, errorBody "Name and email are required"⟩, users)
  else
    let newUser : JsObject :=
      [("name", name), ("email", email), ("status", .string "Pending"),
       ("password", .string password)]
    (⟨201, .object (omitPassword newUser)⟩, users ++ [newUser])

/-- The route `GET /api/users`: `tenantMiddleware`, `checkFeature("userManagement")`, then
the handler. -/
def usersGet (header query : JsValue) (users : List JsObject) : Response :=
  match tenantMiddleware header query with
  | .respond response => response
  | .next tenant =>
    match checkFeature "userManagement" tenant with
    | .respond response => response
    | .next _ => usersGetHandler users

/-- The route `POST /api/users`: `tenantMiddleware`, `checkFeature("userManagement")`, then
the handler. -/
def usersPost (header query : JsValue) (body : JsObject) (password : String)
    (users : List JsObject) : Response × List JsObject :=
  match tenantMiddleware header query with
  | .respond response => (response, users)
  | .next tenant =>
    match checkFeature "userManagement" tenant with
    | .respond response => (response, users)
    | .next _ => usersPostHandler body password users

/-! ## Vocabulary of the statements -/

/-- The registry behaves as a `Map` whose keys are generated ids: no key occurs twice and
no key is the empty string. -/
def RegistryWF (st : ServerState) : Prop :=
  (mapKeys st.clients).Nodup ∧ "" ∉ mapKeys st.clients

/-- The number of registry entries whose socket is `OPEN`. -/
def openCount (clients : List (String × ClientInfo)) : Nat :=
  (clients.filter (fun e => e.2.socket.readyState = ReadyState.OPEN)).length

/-- Whether `clientId` is registered with an `OPEN` socket. -/
def isRegisteredOpen (clients : List (String × ClientInfo)) (clientId : String) : Bool :=
  match mapGet clients clientId with
  | none => false
  | some client => client.socket.readyState = ReadyState.OPEN

/-- The entries a broadcast of `payload` excluding `x` reaches without the transport
raising: not `x`, `OPEN`, and `send` returns. -/
def deliveredTo (payload : JsValue) (x : String) (clients : List (String × ClientInfo)) :
    List (String × ClientInfo) :=
  clients.filter (fun e =>
    e.1 ≠ x ∧ e.2.socket.readyState = ReadyState.OPEN ∧ e.2.socket.sendThrows payload = false)

/-- An object literal has each key once. -/
def ObjectWF (o : JsObject) : Prop :=
  (o.map Prod.fst).Nodup

/-- The part of a registry entry fixed at accept time: its id, address and connect time. -/
def entryCore (e : String × ClientInfo) : String × Option String × Nat :=
  (e.1, e.2.ip, e.2.connectTime)

/-- Whether an effect is the invocation of a subscribed callback. -/
def Effect.isCallback : Effect → Bool
  | .callback _ _ _ => true
  | _ => false

/-- The callbacks invoked by a list of effects, in order of invocation. -/
def invokedCallbacks (effects : List Effect) : List HandlerId :=
  effects.filterMap (fun eff =>
    match eff with
    | .callback cb _ _ => some cb
    | _ => none)

/-- A callback body that makes no call to `setClientMetadata` or `disconnectClient`, the two
public operations that write to a registry entry. -/
inductive Script.ReadOnly : Script → Prop where
  | done : Script.ReadOnly .done
  | throw (e : JsValue) : Script.ReadOnly (.throw e)
  | onEvent (event : String) (cb : HandlerId) (k : Script) :
      Script.ReadOnly k → Script.ReadOnly (.onEvent event cb k)
  | off (event : String) (cb : HandlerId) (k : Script) :
      Script.ReadOnly k → Script.ReadOnly (.off event cb k)
  | sendTo (clientId : String) (data : JsValue) (k : Bool → Script) :
      (∀ b, Script.ReadOnly (k b)) → Script.ReadOnly (.sendTo clientId data k)
  | broadcast (data : JsValue) (excludeClientId : Option String)
      (k : Except JsValue Nat → Script) :
      (∀ r, Script.ReadOnly (k r)) → Script.ReadOnly (.broadcast data excludeClientId k)
  | getClientCount (k : Nat → Script) :
      (∀ n, Script.ReadOnly (k n)) → Script.ReadOnly (.getClientCount k)
  | getClientIds (k : List String → Script) :
      (∀ ids, Script.ReadOnly (k ids)) → Script.ReadOnly (.getClientIds k)
  | getClientInfo (clientId : String) (k : Option ClientView → Script) :
      (∀ info, Script.ReadOnly (k info)) → Script.ReadOnly (.getClientInfo clientId k)

/-- The entries on which a broadcast excluding `excludeClientId` calls `send`: not excluded
and `OPEN`, in registry order. -/
def reachedBy (excludeClientId : Option String) (clients : List (String × ClientInfo)) :
    List (String × ClientInfo) :=
  clients.filter (fun e =>
    isExcluded excludeClientId e.1 = false ∧ e.2.socket.readyState = ReadyState.OPEN)

/-- The entries whose `send` of `payload` returns. -/
def acceptedBy (payload : JsValue) (clients : List (String × ClientInfo)) :
    List (String × ClientInfo) :=
  clients.filter (fun e => e.2.socket.sendThrows payload = false)

/-! ## Example states -/

/-- A stand-in environment: `JSON.stringify` returns `"{}"`, callbacks do nothing. -/
def sampleEnv : Env :=
  { stringify := fun _ => .ok (JsValue.string "{}"),
    handler := fun _ _ => Script.done,
    newServer := fun port path => .ok { port := port, path := path, bound := false } }

/-- An `OPEN` socket whose `send` raises exactly when `failing`. -/
def sampleSocket (failing : Bool) : Socket :=
  { readyState := ReadyState.OPEN, sendThrows := fun _ => failing }

/-- A registry entry around `sampleSocket`. -/
def sampleClient (failing : Bool) : ClientInfo :=
  { socket := sampleSocket failing, ip := some "10.0.0.1", connectTime := 0, metadata := [] }

/-- A started instance with the given registry. -/
def sampleState (clients : List (String × ClientInfo)) : ServerState :=
  { ServerState.new 8080 "/" none true with
    server := some { port := 8080, path := "/", bound := true }, clients := clients }

/-- Three peers `a`, `b`, `c`, all `OPEN`; the transport raises on every `send` to `c`. -/
def threePeersOneFailing : ServerState :=
  sampleState [("a", sampleClient false), ("b", sampleClient false), ("c", sampleClient true)]

/-- Three peers `a`, `b`, `c`, all `OPEN`, on a transport that accepts every `send`. -/
def threePeers : ServerState :=
  sampleState [("a", sampleClient false), ("b", sampleClient false), ("c", sampleClient false)]

/-- An authentication hook that turns every request down by returning `false`. -/
def denyAll : AuthHandler :=
  fun _ => .ok (JsValue.bool false)

/-- An authentication hook that raises on every request. -/
def faultyAuth : AuthHandler :=
  fun _ => .error (JsValue.string "auth backend unreachable")

/-- A request that came through a proxy: the socket address is the proxy, the forwarded-for
header names the original peer first. -/
def proxiedRequest : Request :=
  { remoteAddress := some "10.0.0.1", forwardedFor := some " 203.0.113.7 , 10.0.0.1" }

/-- An environment in which callback 1 raises and every other callback does nothing. -/
def failingFirstEnv : Env :=
  { sampleEnv with
    handler := fun cb _ =>
      if cb = 1 then Script.throw (JsValue.string "subscriber failed") else Script.done }

/-- The state `threePeers` with callbacks 1 and 2 subscribed, in this order, to `close`. -/
def twoCloseSubscribers : ServerState :=
  off "none" 0 (onEvent "close" 2 (onEvent "close" 1 threePeers))

/-- An instance right after construction: never started, nothing registered. -/
def freshInstance : ServerState :=
  ServerState.new 8080 "/" none true

/-- Three `OPEN` peers `a`, `b`, `c`; the transport raises on every `send` to `a`, the first
entry of the registry. -/
def firstPeerFailing : ServerState :=
  sampleState [("a", sampleClient true), ("b", sampleClient false), ("c", sampleClient false)]

/-- The state `threePeers` after the same callback 1 was subscribed twice to `close`. -/
def subscribedTwice : ServerState :=
  onEvent "close" 1 (onEvent "close" 1 threePeers)

/-- An environment in which callback 2 raises and every other callback does nothing. -/
def failingSecondEnv : Env :=
  { sampleEnv with
    handler := fun cb _ =>
      if cb = 2 then Script.throw (JsValue.string "subscriber failed") else Script.done }

/-- The state `threePeers` with callbacks 1, 2 and 3 subscribed, in this order, to
`message`. -/
def threeMessageSubscribers : ServerState :=
  onEvent "message" 3 (onEvent "message" 2 (onEvent "message" 1 threePeers))

/-- An environment in which callback 1 unsubscribes callback 2 from `close` and every other
callback does nothing. -/
def unsubscribingEnv : Env :=
  { sampleEnv with
    handler := fun cb _ => if cb = 1 then Script.off "close" 2 Script.done else Script.done }

/-- A stand-in for the decoding built-ins: `JSON.parse` knows the text `{"type":"ping"}` and
throws on every other text; a `Buffer` holds one character per byte. -/
def sampleDecoding : Decoding :=
  { parse := fun text =>
      if text = "\x7b\"type\":\"ping\"\x7d" then
        .ok (JsValue.object [("type", JsValue.string "ping")])
      else .error (JsValue.string "SyntaxError"),
    bufferToString := fun bytes => String.mk (bytes.map Char.ofNat) }

/-- The state `threePeers` with callback 4 subscribed to `message`. -/
def oneMessageSubscriber : ServerState :=
  onEvent "message" 4 threePeers

/-- Two records of the `User` list, with the passwords generated for them. -/
def sampleUsers : List JsObject :=
  [[("name", JsValue.string "Michael Brown"), ("email", JsValue.string "michael.brown@example.com"),
    ("status", JsValue.string "Pending"), ("password", JsValue.string "k3j9x0qa")],
   [("name", JsValue.string "Sarah Johnson"), ("email", JsValue.string "sarah.johnson@example.com"),
    ("status", JsValue.string "Active"), ("password", JsValue.string "p0w8zz1m")]]

/-- The JSON body `{ name: "Ann", email: "ann@example.com" }`. -/
def sampleBody : JsObject :=
  [("name", JsValue.string "Ann"), ("email", JsValue.string "ann@example.com")]

/-! ## Lemmas on `Map` and objects -/

theorem mapGet_eq_none_of_not_mem {V : Type} (m : List (String × V)) (k : String)
    (h : k ∉ mapKeys m) : mapGet m k = none := by
  induction m with
  | nil => rfl
  | cons e rest ih =>
    obtain ⟨k', v⟩ := e
    simp only [mapKeys, List.map_cons, List.mem_cons, not_or] at h
    have hne : ¬ k' = k := fun hk => h.1 hk.symm
    simp only [mapGet, hne, if_false]
    exact ih h.2

theorem mapGet_of_mem {V : Type} (m : List (String × V)) (k : String) (v : V)
    (hnd : (mapKeys m).Nodup) (h : (k, v) ∈ m) : mapGet m k = some v := by
  induction m with
  | nil => cases h
  | cons e rest ih =>
    obtain ⟨k', v'⟩ := e
    simp only [mapKeys, List.map_cons, List.nodup_cons] at hnd
    rcases List.mem_cons.mp h with heq | hmem
    · cases heq
      simp [mapGet]
    · have hne : ¬ k' = k := by
        intro hk
        apply hnd.1
        rw [hk]
        exact List.mem_map_of_mem Prod.fst hmem
      simp only [mapGet, hne, if_false]
      exact ih hnd.2 hmem

theorem mem_of_mapGet {V : Type} (m : List (String × V)) (k : String) (v : V)
    (h : mapGet m k = some v) : (k, v) ∈ m := by
  induction m with
  | nil => cases h
  | cons e rest ih =>
    obtain ⟨k', v'⟩ := e
    by_cases hk : k' = k
    · simp only [mapGet, hk, if_true, Option.some.injEq] at h
      rw [hk, h]
      exact List.mem_cons_self _ _
    · simp only [mapGet, hk, if_false] at h
      exact List.mem_cons_of_mem _ (ih h)

theorem mapKeys_mapSet_of_mapGet {V : Type} (m : List (String × V)) (k : String) (v w : V)
    (h : mapGet m k = some v) : mapKeys (mapSet m k w) = mapKeys m := by
  induction m with
  | nil => cases h
  | cons e rest ih =>
    obtain ⟨k', v'⟩ := e
    by_cases hk : k' = k
    · simp [mapSet, mapKeys, hk]
    · simp only [mapGet, hk, if_false] at h
      have := ih h
      simp only [mapKeys] at this
      simp [mapSet, mapKeys, hk, this]

theorem mapKeys_mapSet_of_not_mem {V : Type} (m : List (String × V)) (k : String) (w : V)
    (h : k ∉ mapKeys m) : mapSet m k w = m ++ [(k, w)] := by
  induction m with
  | nil => rfl
  | cons e rest ih =>
    obtain ⟨k', v'⟩ := e
    simp only [mapKeys, List.map_cons, List.mem_cons, not_or] at h
    have hne : ¬ k' = k := fun hk => h.1 hk.symm
    simp only [mapSet, hne, if_false, List.cons_append, List.cons.injEq, true_and]
    exact ih h.2

theorem mapGet_mapSet_same {V : Type} (m : List (String × V)) (k : String) (w : V) :
    mapGet (mapSet m k w) k = some w := by
  induction m with
  | nil => simp [mapSet, mapGet]
  | cons e rest ih =>
    obtain ⟨k', v'⟩ := e
    by_cases hk : k' = k
    · simp [mapSet, mapGet, hk]
    · simp [mapSet, mapGet, hk, ih]

theorem mapGet_mapSet_other {V : Type} (m : List (String × V)) (k k2 : String) (w : V)
    (hne : k2 ≠ k) : mapGet (mapSet m k w) k2 = mapGet m k2 := by
  induction m with
  | nil =>
    have : ¬ k = k2 := fun h => hne h.symm
    simp [mapSet, mapGet, this]
  | cons e rest ih =>
    obtain ⟨k', v'⟩ := e
    by_cases hk : k' = k
    · have : ¬ k = k2 := fun h => hne h.symm
      have h2 : ¬ k' = k2 := by rw [hk]; exact this
      simp [mapSet, mapGet, hk, this]
    · by_cases hk2 : k' = k2
      · subst hk2
        simp [mapSet, mapGet, hk]
      · simp [mapSet, mapGet, hk, hk2, ih]

theorem objGet_objSet_same (o : JsObject) (k : String) (v : JsValue) :
    objGet (objSet o k v) k = some v := by
  induction o with
  | nil => simp [objSet, objGet]
  | cons e rest ih =>
    obtain ⟨k', v'⟩ := e
    by_cases hk : k' = k
    · simp [objSet, objGet, hk]
    · simp [objSet, objGet, hk, ih]

theorem objGet_objSet_other (o : JsObject) (k k2 : String) (v : JsValue) (hne : k2 ≠ k) :
    objGet (objSet o k v) k2 = objGet o k2 := by
  induction o with
  | nil =>
    have : ¬ k = k2 := fun h => hne h.symm
    simp [objSet, objGet, this]
  | cons e rest ih =>
    obtain ⟨k', v'⟩ := e
    by_cases hk : k' = k
    · have : ¬ k = k2 := fun h => hne h.symm
      simp [objSet, objGet, hk, this]
    · by_cases hk2 : k' = k2
      · subst hk2
        simp [objSet, objGet, hk]
      · simp [objSet, objGet, hk, hk2, ih]

theorem objGet_eq_none_of_not_mem (o : JsObject) (k : String)
    (h : k ∉ o.map Prod.fst) : objGet o k = none := by
  induction o with
  | nil => rfl
  | cons e rest ih =>
    obtain ⟨k', v⟩ := e
    simp only [List.map_cons, List.mem_cons, not_or] at h
    have hne : ¬ k' = k := fun hk => h.1 hk.symm
    simp only [objGet, hne, if_false]
    exact ih h.2

/-- Reading a key after `...src` was copied onto `target`: the value of `src` when it has
the key, the one of `target` otherwise. -/
theorem objGet_objAssign (src target : JsObject) (k : String) (hwf : ObjectWF src) :
    objGet (objAssign target src) k = (objGet src k).orElse (fun _ => objGet target k) := by
  induction src generalizing target with
  | nil => simp [objAssign, objGet]
  | cons e rest ih =>
    obtain ⟨k', v⟩ := e
    simp only [ObjectWF, List.map_cons, List.nodup_cons] at hwf
    have hrest := ih (objSet target k' v) hwf.2
    simp only [objAssign, List.foldl_cons] at hrest ⊢
    rw [hrest]
    by_cases hk : k' = k
    · have hnone : objGet rest k = none :=
        objGet_eq_none_of_not_mem rest k (by rw [← hk]; exact hwf.1)
      simp [objGet, hk, hnone, objGet_objSet_same]
    · have hk2 : k ≠ k' := fun h => hk h.symm
      simp [objGet, hk, objGet_objSet_other _ _ _ _ hk2]

/-! ## `broadcast` -/

theorem isExcluded_some (x clientId : String) (hid : clientId ≠ "") :
    isExcluded (some x) clientId = decide (clientId = x) := by
  unfold isExcluded
  by_cases hx : x = ""
  · subst hx
    simp [hid]
  · by_cases hc : clientId = x
    · simp [hx, hc]
    · simp [hx, hc]

theorem deliveredTo_cons (payload : JsValue) (x k : String) (c : ClientInfo)
    (rest : List (String × ClientInfo)) :
    deliveredTo payload x ((k, c) :: rest) =
      if k ≠ x ∧ c.socket.readyState = ReadyState.OPEN ∧ c.socket.sendThrows payload = false
      then (k, c) :: deliveredTo payload x rest else deliveredTo payload x rest := by
  simp only [deliveredTo, List.filter_cons]
  split_ifs <;> simp_all

theorem openCount_cons (k : String) (c : ClientInfo) (rest : List (String × ClientInfo)) :
    openCount ((k, c) :: rest) =
      if c.socket.readyState = ReadyState.OPEN then openCount rest + 1 else openCount rest := by
  simp only [openCount, List.filter_cons]
  split_ifs <;> simp_all

theorem isRegisteredOpen_cons (k x : String) (c : ClientInfo)
    (rest : List (String × ClientInfo)) :
    isRegisteredOpen ((k, c) :: rest) x =
      if k = x then decide (c.socket.readyState = ReadyState.OPEN)
      else isRegisteredOpen rest x := by
  simp only [isRegisteredOpen, mapGet]
  split_ifs <;> rfl

/-- The loop of `broadcast`: one `send` per entry that is not excluded and `OPEN`, in
registry order, and one count per `send` that returned. -/
theorem broadcastLoop_eq (payload : JsValue) (x : String) (l : List (String × ClientInfo))
    (n : Nat) (hkeys : ∀ e ∈ l, e.1 ≠ "") :
    broadcastLoop payload (some x) l n =
      (n + (deliveredTo payload x l).length,
       (l.filter (fun e => e.1 ≠ x ∧ e.2.socket.readyState = ReadyState.OPEN)).map
         (fun e => Effect.send e.1 payload (e.2.socket.sendThrows payload))) := by
  induction l generalizing n with
  | nil => simp [broadcastLoop, deliveredTo]
  | cons e rest ih =>
    obtain ⟨k, c⟩ := e
    have hk : k ≠ "" := hkeys (k, c) (List.mem_cons_self _ _)
    have hrest : ∀ e ∈ rest, e.1 ≠ "" := fun e he => hkeys e (List.mem_cons_of_mem _ he)
    simp only [broadcastLoop, isExcluded_some x k hk, deliveredTo_cons, ih _ hrest]
    by_cases hx : k = x
    · simp [hx, List.filter_cons]
    · by_cases ho : c.socket.readyState = ReadyState.OPEN
      · by_cases ht : c.socket.sendThrows payload = true
        · simp [hx, ho, ht, List.filter_cons]
        · simp only [Bool.not_eq_true] at ht
          simp [hx, ho, ht, List.filter_cons]
          omega
      · simp [hx, ho, List.filter_cons]

theorem deliveredTo_length_of_not_mem (payload : JsValue) (x : String)
    (l : List (String × ClientInfo)) (hx : x ∉ mapKeys l)
    (hok : ∀ e ∈ l, e.2.socket.readyState = ReadyState.OPEN →
      e.2.socket.sendThrows payload = false) :
    (deliveredTo payload x l).length = openCount l := by
  induction l with
  | nil => rfl
  | cons e rest ih =>
    obtain ⟨k, c⟩ := e
    simp only [mapKeys, List.map_cons, List.mem_cons, not_or] at hx
    have hne : k ≠ x := fun h => hx.1 h.symm
    have hrest := ih hx.2 (fun e he => hok e (List.mem_cons_of_mem _ he))
    rw [deliveredTo_cons, openCount_cons]
    by_cases ho : c.socket.readyState = ReadyState.OPEN
    · have ht := hok (k, c) (List.mem_cons_self _ _) ho
      simp only at ht
      simp [hne, ho, ht, hrest]
    · simp [ho, hrest]

/-- When no `send` raises, the entries reached are the `OPEN` ones, less the excluded one
when it is registered and `OPEN`. -/
theorem deliveredTo_length_add (payload : JsValue) (x : String)
    (l : List (String × ClientInfo)) (hnd : (mapKeys l).Nodup)
    (hok : ∀ e ∈ l, e.2.socket.readyState = ReadyState.OPEN →
      e.2.socket.sendThrows payload = false) :
    (deliveredTo payload x l).length + (if isRegisteredOpen l x then 1 else 0) =
      openCount l := by
  induction l with
  | nil => rfl
  | cons e rest ih =>
    obtain ⟨k, c⟩ := e
    simp only [mapKeys, List.map_cons, List.nodup_cons] at hnd
    have hokr : ∀ e ∈ rest, e.2.socket.readyState = ReadyState.OPEN →
        e.2.socket.sendThrows payload = false :=
      fun e he => hok e (List.mem_cons_of_mem _ he)
    rw [deliveredTo_cons, openCount_cons, isRegisteredOpen_cons]
    by_cases hx : k = x
    · subst hx
      have hrest := deliveredTo_length_of_not_mem payload k rest hnd.1 hokr
      by_cases ho : c.socket.readyState = ReadyState.OPEN
      · simp [ho, hrest]
      · simp [ho, hrest]
    · have hrest := ih hnd.2 hokr
      by_cases ho : c.socket.readyState = ReadyState.OPEN
      · have ht := hok (k, c) (List.mem_cons_self _ _) ho
        simp only at ht
        simp only [hx, ho, ht, ne_eq, not_false_eq_true, and_self, if_true, if_false,
          List.length_cons]
        omega
      · simp only [hx, ho, ne_eq, not_false_eq_true, false_and, and_false, if_false]
        exact hrest

/-- C1 (as stated) fails: with peers `a`, `b`, `c` all `OPEN` and a transport that raises on
the `send` to `c`, `broadcast("hi", "b")` returns 1, while the number of `OPEN` connections
minus one for the excluded `OPEN` peer is 2. -/
theorem broadcast_count_counterexample :
    RegistryWF threePeersOneFailing ∧
    (broadcast sampleEnv (JsValue.string "hi") (some "b") threePeersOneFailing).result
      = .ok 1 ∧
    openCount threePeersOneFailing.clients -
      (if isRegisteredOpen threePeersOneFailing.clients "b" then 1 else 0) = 2 := by
  refine ⟨?_, rfl, by decide⟩
  unfold RegistryWF
  decide

/-- C1 (amended): on a well-formed registry, `broadcast(data, x)` leaves the state as it is,
calls `send` on no socket of `x`, calls `send` with the serialized payload on every other
`OPEN` connection, and returns the number of non-excluded `OPEN` connections whose `send`
returned; when no `send` raises this is the number of `OPEN` connections minus one if `x`
is registered and `OPEN`. -/
theorem broadcast_excludes_and_counts (env : Env) (st : ServerState) (data payload : JsValue)
    (x : String) (hwf : RegistryWF st) (hser : serialize env data = .ok payload) :
    (broadcast env data (some x) st).state = st ∧
    (∀ p t, Effect.send x p t ∉ (broadcast env data (some x) st).effects) ∧
    (∀ id c, (id, c) ∈ st.clients → id ≠ x → c.socket.readyState = ReadyState.OPEN →
      Effect.send id payload (c.socket.sendThrows payload)
        ∈ (broadcast env data (some x) st).effects) ∧
    (broadcast env data (some x) st).result = .ok (deliveredTo payload x st.clients).length ∧
    ((∀ e ∈ st.clients, e.2.socket.readyState = ReadyState.OPEN →
        e.2.socket.sendThrows payload = false) →
      (broadcast env data (some x) st).result =
        .ok (openCount st.clients - (if isRegisteredOpen st.clients x then 1 else 0))) := by
  have hkeys : ∀ e ∈ st.clients, e.1 ≠ "" := by
    intro e he h
    exact hwf.2 (h ▸ List.mem_map_of_mem Prod.fst he)
  have hloop := broadcastLoop_eq payload x st.clients 0 hkeys
  have hb : broadcast env data (some x) st =
      ⟨st, (broadcastLoop payload (some x) st.clients 0).2,
        .ok (broadcastLoop payload (some x) st.clients 0).1⟩ := by
    simp only [broadcast, hser]
  rw [hb, hloop]
  refine ⟨rfl, ?_, ?_, ?_, ?_⟩
  · intro p t hmem
    simp only [List.mem_map, List.mem_filter] at hmem
    obtain ⟨e, ⟨_, he⟩, heq⟩ := hmem
    simp only [decide_eq_true_eq] at he
    injection heq with h1
    exact he.1 h1
  · intro id c hmem hne ho
    simp only [List.mem_map, List.mem_filter]
    exact ⟨(id, c), ⟨hmem, by simp [hne, ho]⟩, rfl⟩
  · simp
  · intro hok
    have hadd := deliveredTo_length_add payload x st.clients hwf.1 hok
    simp only [Nat.zero_add]
    congr 1
    omega

/-- C1 (amended), applied: three `OPEN` peers on a transport that accepts every `send`;
broadcasting `"hi"` excluding `b` returns 2. -/
theorem broadcast_excludes_and_counts_witness :
    RegistryWF threePeers ∧
    (broadcast sampleEnv (JsValue.string "hi") (some "b") threePeers).result = .ok 2 := by
  have hwf : RegistryWF threePeers := by
    unfold RegistryWF
    decide
  refine ⟨hwf, ?_⟩
  have h := (broadcast_excludes_and_counts sampleEnv threePeers (JsValue.string "hi")
    (JsValue.string "hi") "b" hwf rfl).2.2.2.2
  apply h
  intro e he _
  simp only [threePeers, sampleState, List.mem_cons, List.mem_singleton, List.mem_nil_iff,
    or_false] at he
  rcases he with rfl | rfl | rfl <;> rfl

/-! ## `sendTo` -/

/-- C2: `sendTo(id, data)` never throws and leaves the state as it is; for an id that is not
registered or whose socket is not `OPEN` it returns false without any call on the
transport; when serialization or `send` raises it returns false; it returns true only for a
registered `OPEN` connection whose `send` was called once and returned. -/
theorem sendTo_returns_boolean (env : Env) (st : ServerState) (id : String) (data : JsValue) :
    (sendTo env id data st).state = st ∧
    (∃ b, (sendTo env id data st).result = .ok b) ∧
    (mapGet st.clients id = none →
      (sendTo env id data st).result = .ok false ∧ (sendTo env id data st).effects = []) ∧
    (∀ c, mapGet st.clients id = some c → c.socket.readyState ≠ ReadyState.OPEN →
      (sendTo env id data st).result = .ok false ∧ (sendTo env id data st).effects = []) ∧
    (∀ c e, mapGet st.clients id = some c → c.socket.readyState = ReadyState.OPEN →
      serialize env data = .error e →
      (sendTo env id data st).result = .ok false ∧ (sendTo env id data st).effects = []) ∧
    (∀ c payload, mapGet st.clients id = some c → c.socket.readyState = ReadyState.OPEN →
      serialize env data = .ok payload → c.socket.sendThrows payload = true →
      (sendTo env id data st).result = .ok false ∧
        (sendTo env id data st).effects = [Effect.send id payload true]) ∧
    ((sendTo env id data st).result = .ok true →
      ∃ c payload, mapGet st.clients id = some c ∧ c.socket.readyState = ReadyState.OPEN ∧
        serialize env data = .ok payload ∧ c.socket.sendThrows payload = false ∧
        (sendTo env id data st).effects = [Effect.send id payload false]) := by
  cases hg : mapGet st.clients id with
  | none =>
    have hval : sendTo env id data st = ⟨st, [], .ok false⟩ := by simp [sendTo, hg]
    rw [hval]
    simp
  | some c =>
    by_cases ho : c.socket.readyState = ReadyState.OPEN
    · cases hs : serialize env data with
      | error e =>
        have hval : sendTo env id data st = ⟨st, [], .ok false⟩ := by simp [sendTo, hg, ho, hs]
        rw [hval]
        simp
      | ok payload =>
        by_cases ht : c.socket.sendThrows payload = true
        · have hval : sendTo env id data st = ⟨st, [Effect.send id payload true], .ok false⟩ := by
            simp [sendTo, hg, ho, hs, ht]
          rw [hval]
          simp [ho]
        · simp only [Bool.not_eq_true] at ht
          have hval : sendTo env id data st = ⟨st, [Effect.send id payload false], .ok true⟩ := by
            simp [sendTo, hg, ho, hs, ht]
          rw [hval]
          simp [ho, ht]
    · have hval : sendTo env id data st = ⟨st, [], .ok false⟩ := by simp [sendTo, hg, ho]
      rw [hval]
      refine ⟨rfl, ⟨false, rfl⟩, fun _ => ⟨rfl, rfl⟩, fun _ _ _ => ⟨rfl, rfl⟩, ?_, ?_, ?_⟩
      · intro c1 e h1 h2
        exact absurd (Option.some.inj h1 ▸ h2) ho
      · intro c1 payload h1 h2
        exact absurd (Option.some.inj h1 ▸ h2) ho
      · intro h
        simp at h

/-- C2, applied: an unknown id, a socket whose `send` raises, and a healthy socket. -/
theorem sendTo_returns_boolean_witness :
    (sendTo sampleEnv "nobody" (JsValue.string "hi") threePeersOneFailing).result = .ok false ∧
    (sendTo sampleEnv "nobody" (JsValue.string "hi") threePeersOneFailing).effects = [] ∧
    (sendTo sampleEnv "c" (JsValue.string "hi") threePeersOneFailing).result = .ok false ∧
    (sendTo sampleEnv "a" (JsValue.string "hi") threePeersOneFailing).result = .ok true := by
  have h := (sendTo_returns_boolean sampleEnv threePeersOneFailing "nobody"
    (JsValue.string "hi")).2.2.1 rfl
  exact ⟨h.1, h.2, rfl, rfl⟩

/-! ## `setClientMetadata` -/

theorem objSet_keys_nodup (o : JsObject) (k : String) (v : JsValue) (h : ObjectWF o) :
    ObjectWF (objSet o k v) := by
  induction o with
  | nil => simp [objSet, ObjectWF]
  | cons e rest ih =>
    obtain ⟨k', v'⟩ := e
    simp only [ObjectWF, List.map_cons, List.nodup_cons] at h
    by_cases hk : k' = k
    · subst hk
      simp only [objSet, if_true, ObjectWF, List.map_cons, List.nodup_cons]
      exact h
    · simp only [objSet, hk, if_false, ObjectWF, List.map_cons, List.nodup_cons]
      refine ⟨?_, ih h.2⟩
      intro hmem
      have hget : objGet (objSet rest k v) k' = objGet rest k' :=
        objGet_objSet_other rest k k' v hk
      have hnone : objGet rest k' = none := objGet_eq_none_of_not_mem rest k' h.1
      rw [hnone] at hget
      clear ih
      generalize objSet rest k v = o at hmem hget
      induction o with
      | nil => cases hmem
      | cons e o ih2 =>
        obtain ⟨a, b⟩ := e
        by_cases ha : a = k'
        · simp [objGet, ha] at hget
        · simp only [objGet, ha, if_false] at hget
          simp only [List.map_cons, List.mem_cons] at hmem
          rcases hmem with h1 | h1
          · exact ha h1.symm
          · exact ih2 h1 hget

theorem objAssign_wf (target src : JsObject) (h : ObjectWF target) :
    ObjectWF (objAssign target src) := by
  induction src generalizing target with
  | nil => exact h
  | cons e rest ih =>
    simp only [objAssign, List.foldl_cons]
    exact ih _ (objSet_keys_nodup target e.1 e.2 h)

theorem objSpread_wf (a b : JsObject) : ObjectWF (objSpread a b) :=
  objAssign_wf _ b (objAssign_wf [] a List.nodup_nil)

/-- Reading a key of `{ ...a, ...b }`: the value of `b` when it has the key, else the one of
`a`. -/
theorem objGet_objSpread (a b : JsObject) (k : String) (ha : ObjectWF a) (hb : ObjectWF b) :
    objGet (objSpread a b) k = (objGet b k).orElse (fun _ => objGet a k) := by
  unfold objSpread
  rw [objGet_objAssign b _ k hb, objGet_objAssign a [] k ha]
  cases objGet b k <;> cases objGet a k <;> simp [objGet]

/-- C3: on a registered connection, after `setClientMetadata(id, p1)` and then
`setClientMetadata(id, p2)` (both return true), the metadata returned by `getClientInfo(id)`
maps each key to the value of `p2` if `p2` has it, else to the value of `p1` if `p1` has it,
else to its value before the two calls; no key present before is dropped. -/
theorem setClientMetadata_merges (st : ServerState) (id : String) (c : ClientInfo)
    (p1 p2 : JsObject) (hreg : mapGet st.clients id = some c)
    (hm : ObjectWF c.metadata) (h1 : ObjectWF p1) (h2 : ObjectWF p2) :
    (setClientMetadata id p1 st).result = .ok true ∧
    (setClientMetadata id p2 (setClientMetadata id p1 st).state).result = .ok true ∧
    ∃ info,
      getClientInfo id (setClientMetadata id p2 (setClientMetadata id p1 st).state).state
        = some info ∧
      info.id = id ∧ info.ip = c.ip ∧ info.connectTime = c.connectTime ∧
      (∀ k, objGet info.metadata k =
        match objGet p2 k with
        | some v => some v
        | none =>
          match objGet p1 k with
          | some v => some v
          | none => objGet c.metadata k) ∧
      (∀ k, (objGet c.metadata k).isSome → (objGet info.metadata k).isSome) := by
  have hkey : ∀ k, objGet (objSpread (objSpread c.metadata p1) p2) k =
      match objGet p2 k with
      | some v => some v
      | none =>
        match objGet p1 k with
        | some v => some v
        | none => objGet c.metadata k := by
    intro k
    rw [objGet_objSpread _ p2 k (objSpread_wf _ _) h2, objGet_objSpread _ p1 k hm h1]
    cases objGet p2 k <;> cases objGet p1 k <;> simp
  simp only [setClientMetadata, hreg, mapGet_mapSet_same, getClientInfo]
  refine ⟨trivial, trivial, _, rfl, rfl, rfl, rfl, hkey, ?_⟩
  intro k hk
  simp only at hkey ⊢
  rw [hkey k]
  cases objGet p2 k <;> cases objGet p1 k <;> simp_all

/-- C3, applied: on a connection with empty metadata, `{a: 1}` then `{b: 2}` gives
`{a: 1, b: 2}`. -/
theorem setClientMetadata_merges_witness :
    (∃ info,
      getClientInfo "a" (setClientMetadata "a" [("b", JsValue.number 2)]
        (setClientMetadata "a" [("a", JsValue.number 1)] threePeers).state).state = some info ∧
      info.metadata = [("a", JsValue.number 1), ("b", JsValue.number 2)]) ∧
    ∃ info,
      getClientInfo "a" (setClientMetadata "a" [("b", JsValue.number 2)]
        (setClientMetadata "a" [("a", JsValue.number 1)] threePeers).state).state = some info ∧
      objGet info.metadata "a" = some (JsValue.number 1) := by
  refine ⟨⟨_, rfl, rfl⟩, ?_⟩
  obtain ⟨_, _, info, hinfo, _, _, _, hget, _⟩ :=
    setClientMetadata_merges threePeers "a" (sampleClient false)
      [("a", JsValue.number 1)] [("b", JsValue.number 2)] rfl
      (by unfold ObjectWF; decide) (by unfold ObjectWF; decide) (by unfold ObjectWF; decide)
  exact ⟨info, hinfo, by rw [hget "a"]; rfl⟩

/-! ## What callbacks can and cannot change -/

theorem map_entryCore_mapSet (m : List (String × ClientInfo)) (k : String) (v w : ClientInfo)
    (hget : mapGet m k = some v) (hip : w.ip = v.ip) (htime : w.connectTime = v.connectTime) :
    (mapSet m k w).map entryCore = m.map entryCore := by
  induction m with
  | nil => cases hget
  | cons e rest ih =>
    obtain ⟨k', v'⟩ := e
    by_cases hk : k' = k
    · simp only [mapGet, hk, if_true, Option.some.injEq] at hget
      subst hget
      simp [mapSet, hk, entryCore, hip, htime]
    · simp only [mapGet, hk, if_false] at hget
      simp [mapSet, hk, ih hget]

theorem mapKeys_eq_of_entryCore (m1 m2 : List (String × ClientInfo))
    (h : m1.map entryCore = m2.map entryCore) : mapKeys m1 = mapKeys m2 := by
  have h2 := congrArg (List.map Prod.fst) h
  simpa [mapKeys, List.map_map, Function.comp_def, entryCore] using h2

theorem mapGet_ip_of_entryCore (m1 m2 : List (String × ClientInfo)) (k : String)
    (h : m1.map entryCore = m2.map entryCore) :
    (mapGet m1 k).map (fun c => (c.ip, c.connectTime)) =
      (mapGet m2 k).map (fun c => (c.ip, c.connectTime)) := by
  induction m1 generalizing m2 with
  | nil =>
    cases m2 with
    | nil => rfl
    | cons e rest => simp at h
  | cons e rest ih =>
    cases m2 with
    | nil => simp at h
    | cons e2 rest2 =>
      obtain ⟨k1, c1⟩ := e
      obtain ⟨k2, c2⟩ := e2
      simp only [List.map_cons, List.cons.injEq, entryCore, Prod.mk.injEq] at h
      obtain ⟨⟨hk, hip, ht⟩, hrest⟩ := h
      subst hk
      by_cases hkk : k1 = k
      · simp [mapGet, hkk, hip, ht]
      · simp only [mapGet, hkk, if_false]
        exact ih rest2 hrest

theorem sendTo_state (env : Env) (clientId : String) (data : JsValue) (st : ServerState) :
    (sendTo env clientId data st).state = st := by
  unfold sendTo
  split
  · rfl
  · split
    · rfl
    · split
      · rfl
      · split <;> rfl

theorem sendTo_effects (env : Env) (clientId : String) (data : JsValue) (st : ServerState) :
    ∀ eff ∈ (sendTo env clientId data st).effects, eff.isCallback = false := by
  unfold sendTo
  split
  · simp
  · split
    · simp
    · split
      · simp
      · split <;> simp [Effect.isCallback]

theorem broadcastLoop_effects (payload : JsValue) (excludeClientId : Option String)
    (l : List (String × ClientInfo)) (n : Nat) :
    ∀ eff ∈ (broadcastLoop payload excludeClientId l n).2, eff.isCallback = false := by
  induction l generalizing n with
  | nil => simp [broadcastLoop]
  | cons e rest ih =>
    obtain ⟨k, c⟩ := e
    simp only [broadcastLoop]
    split
    · exact ih n
    · split
      · split
        · intro eff heff
          rcases List.mem_cons.mp heff with h | h
          · rw [h]; rfl
          · exact ih n eff h
        · intro eff heff
          rcases List.mem_cons.mp heff with h | h
          · rw [h]; rfl
          · exact ih (n + 1) eff h
      · exact ih n

theorem broadcast_state (env : Env) (data : JsValue) (excludeClientId : Option String)
    (st : ServerState) : (broadcast env data excludeClientId st).state = st := by
  unfold broadcast
  split <;> rfl

theorem broadcast_effects (env : Env) (data : JsValue) (excludeClientId : Option String)
    (st : ServerState) :
    ∀ eff ∈ (broadcast env data excludeClientId st).effects, eff.isCallback = false := by
  unfold broadcast
  split
  · simp
  · exact broadcastLoop_effects _ _ _ _

theorem setClientMetadata_core (clientId : String) (metadata : JsObject) (st : ServerState) :
    (setClientMetadata clientId metadata st).state.clients.map entryCore
      = st.clients.map entryCore ∧
    (setClientMetadata clientId metadata st).effects = [] := by
  unfold setClientMetadata
  split
  · exact ⟨rfl, rfl⟩
  · next client hget =>
    exact ⟨map_entryCore_mapSet _ _ client _ hget rfl rfl, rfl⟩

theorem disconnectClient_core (clientId : String) (code : Nat) (reason : String)
    (st : ServerState) :
    (disconnectClient clientId code reason st).state.clients.map entryCore
      = st.clients.map entryCore ∧
    ∀ eff ∈ (disconnectClient clientId code reason st).effects, eff.isCallback = false := by
  unfold disconnectClient
  split
  · exact ⟨rfl, by simp⟩
  · next client hget =>
    split
    · simp only
      cases (client.socket.close code reason).2 with
      | none => exact ⟨map_entryCore_mapSet _ _ client _ hget rfl rfl, by simp [Effect.isCallback]⟩
      | some e =>
        exact ⟨map_entryCore_mapSet _ _ client _ hget rfl rfl, by simp [Effect.isCallback]⟩
    · exact ⟨rfl, by simp⟩

/-- A callback body changes no id, address or connect time of the registry and invokes no
subscribed callback. -/
theorem runScript_core (env : Env) (s : Script) (st : ServerState) :
    (runScript env s st).state.clients.map entryCore = st.clients.map entryCore ∧
    ∀ eff ∈ (runScript env s st).effects, eff.isCallback = false := by
  induction s generalizing st with
  | done => exact ⟨rfl, by simp [runScript]⟩
  | throw e => exact ⟨rfl, by simp [runScript]⟩
  | onEvent event cb k ih =>
    simp only [runScript]
    have h := ih (onEvent event cb st)
    refine ⟨?_, h.2⟩
    rw [h.1]
    unfold onEvent
    split <;> rfl
  | off event cb k ih =>
    simp only [runScript]
    have h := ih (off event cb st)
    refine ⟨?_, h.2⟩
    rw [h.1]
    unfold off
    split <;> rfl
  | sendTo clientId data k ih =>
    simp only [runScript]
    split
    · exact ⟨by rw [sendTo_state], sendTo_effects env clientId data st⟩
    · next b _ =>
      have h := ih b (sendTo env clientId data st).state
      refine ⟨by rw [h.1, sendTo_state], ?_⟩
      intro eff heff
      rcases List.mem_append.mp heff with h1 | h1
      · exact sendTo_effects env clientId data st eff h1
      · exact h.2 eff h1
  | broadcast data excludeClientId k ih =>
    simp only [runScript]
    have h := ih (broadcast env data excludeClientId st).result
      (broadcast env data excludeClientId st).state
    refine ⟨by rw [h.1, broadcast_state], ?_⟩
    intro eff heff
    rcases List.mem_append.mp heff with h1 | h1
    · exact broadcast_effects env data excludeClientId st eff h1
    · exact h.2 eff h1
  | getClientCount k ih =>
    simp only [runScript]
    exact ih _ st
  | getClientIds k ih =>
    simp only [runScript]
    exact ih _ st
  | getClientInfo clientId k ih =>
    simp only [runScript]
    exact ih _ st
  | setClientMetadata clientId metadata k ih =>
    simp only [runScript]
    have hc := setClientMetadata_core clientId metadata st
    split
    · exact ⟨hc.1, by rw [hc.2]; simp⟩
    · next b _ =>
      have h := ih b (setClientMetadata clientId metadata st).state
      refine ⟨by rw [h.1, hc.1], ?_⟩
      intro eff heff
      rw [hc.2, List.nil_append] at heff
      exact h.2 eff heff
  | disconnectClient clientId code reason k ih =>
    simp only [runScript]
    have hc := disconnectClient_core clientId code reason st
    split
    · exact hc
    · next b _ =>
      have h := ih b (disconnectClient clientId code reason st).state
      refine ⟨by rw [h.1, hc.1], ?_⟩
      intro eff heff
      rcases List.mem_append.mp heff with h1 | h1
      · exact hc.2 eff h1
      · exact h.2 eff h1

/-- A read-only callback body leaves every registry entry as it is. -/
theorem runScript_readOnly (env : Env) (s : Script) (hs : s.ReadOnly) (st : ServerState) :
    (runScript env s st).state.clients = st.clients := by
  induction hs generalizing st with
  | done => rfl
  | throw e => rfl
  | onEvent event cb k _ ih =>
    simp only [runScript]
    rw [ih]
    unfold onEvent
    split <;> rfl
  | off event cb k _ ih =>
    simp only [runScript]
    rw [ih]
    unfold off
    split <;> rfl
  | sendTo clientId data k _ ih =>
    simp only [runScript]
    split
    · rw [sendTo_state]
    · next b _ => rw [ih b, sendTo_state]
  | broadcast data excludeClientId k _ ih =>
    simp only [runScript]
    rw [ih, broadcast_state]
  | getClientCount k _ ih =>
    simp only [runScript]
    exact ih _ st
  | getClientIds k _ ih =>
    simp only [runScript]
    exact ih _ st
  | getClientInfo clientId k _ ih =>
    simp only [runScript]
    exact ih _ st

theorem invokedCallbacks_eq_nil (effects : List Effect)
    (h : ∀ eff ∈ effects, eff.isCallback = false) : invokedCallbacks effects = [] := by
  induction effects with
  | nil => rfl
  | cons eff rest ih =>
    have h1 := h eff (List.mem_cons_self _ _)
    have h2 := ih (fun e he => h e (List.mem_cons_of_mem _ he))
    cases eff <;> simp_all [invokedCallbacks, Effect.isCallback]

theorem invokedCallbacks_append (l1 l2 : List Effect) :
    invokedCallbacks (l1 ++ l2) = invokedCallbacks l1 ++ invokedCallbacks l2 := by
  simp [invokedCallbacks, List.filterMap_append]

/-! ## Lemmas on the dispatch pass -/

theorem forEachCallback_core (env : Env) (data : EventData) (cbs : List HandlerId)
    (st : ServerState) :
    (forEachCallback env data cbs st).state.clients.map entryCore
      = st.clients.map entryCore := by
  induction cbs generalizing st with
  | nil => rfl
  | cons cb rest ih =>
    simp only [forEachCallback]
    split
    · exact (runScript_core env _ st).1
    · simp only
      rw [ih, (runScript_core env _ st).1]

theorem forEachCallback_before (env : Env) (data : EventData) (cbs : List HandlerId)
    (st : ServerState) (cb : HandlerId) (d : EventData) (before : ServerState)
    (h : Effect.callback cb d before ∈ (forEachCallback env data cbs st).effects) :
    d = data ∧ cb ∈ cbs ∧ before.clients.map entryCore = st.clients.map entryCore := by
  induction cbs generalizing st with
  | nil => simp [forEachCallback] at h
  | cons c rest ih =>
    have hscript := runScript_core env (env.handler c data) st
    simp only [forEachCallback] at h
    split at h
    · rcases List.mem_cons.mp h with h1 | h1
      · injection h1 with h1 h2 h3
        exact ⟨h2, by rw [h1]; exact List.mem_cons_self _ _, by rw [h3]⟩
      · have := hscript.2 _ h1
        simp [Effect.isCallback] at this
    · simp only at h
      rcases List.mem_cons.mp h with h1 | h1
      · injection h1 with h1 h2 h3
        exact ⟨h2, by rw [h1]; exact List.mem_cons_self _ _, by rw [h3]⟩
      · rcases List.mem_append.mp h1 with h2 | h2
        · have := hscript.2 _ h2
          simp [Effect.isCallback] at this
        · have h3 := ih _ h2
          exact ⟨h3.1, List.mem_cons_of_mem _ h3.2.1, by rw [h3.2.2, hscript.1]⟩

theorem forEachCallback_readOnly (env : Env) (data : EventData) (cbs : List HandlerId)
    (st : ServerState) (hro : ∀ cb ∈ cbs, (env.handler cb data).ReadOnly) :
    (forEachCallback env data cbs st).state.clients = st.clients := by
  induction cbs generalizing st with
  | nil => rfl
  | cons cb rest ih =>
    have h1 := runScript_readOnly env _ (hro cb (List.mem_cons_self _ _)) st
    simp only [forEachCallback]
    split
    · exact h1
    · simp only
      rw [ih _ (fun c hc => hro c (List.mem_cons_of_mem _ hc)), h1]

/-- The callbacks a pass invokes: all of them, in order, when none raises; otherwise those up
to and including the first one that raises, whose exception is the result of the pass. -/
theorem forEachCallback_invoked (env : Env) (data : EventData) (cbs : List HandlerId)
    (st : ServerState) :
    match (forEachCallback env data cbs st).result with
    | .ok _ => invokedCallbacks (forEachCallback env data cbs st).effects = cbs
    | .error e =>
      ∃ pre cb post before, cbs = pre ++ cb :: post ∧
        invokedCallbacks (forEachCallback env data cbs st).effects = pre ++ [cb] ∧
        (runScript env (env.handler cb data) before).result = .error e := by
  induction cbs generalizing st with
  | nil => simp [forEachCallback, invokedCallbacks]
  | cons c rest ih =>
    have hnil := invokedCallbacks_eq_nil _ (runScript_core env (env.handler c data) st).2
    cases hr : (runScript env (env.handler c data) st).result with
    | error e =>
      have hval : forEachCallback env data (c :: rest) st =
          ⟨(runScript env (env.handler c data) st).state,
            Effect.callback c data st :: (runScript env (env.handler c data) st).effects,
            .error e⟩ := by
        simp only [forEachCallback, hr]
      rw [hval]
      refine ⟨[], c, rest, st, rfl, ?_, hr⟩
      have := invokedCallbacks_append [Effect.callback c data st]
        (runScript env (env.handler c data) st).effects
      simp only [List.singleton_append] at this
      simp only [this, hnil]
      rfl
    | ok u =>
      have hval : forEachCallback env data (c :: rest) st =
          ⟨(forEachCallback env data rest (runScript env (env.handler c data) st).state).state,
            Effect.callback c data st :: ((runScript env (env.handler c data) st).effects ++
              (forEachCallback env data rest
                (runScript env (env.handler c data) st).state).effects),
            (forEachCallback env data rest
              (runScript env (env.handler c data) st).state).result⟩ := by
        simp only [forEachCallback, hr]
      have hinv : invokedCallbacks (Effect.callback c data st ::
          ((runScript env (env.handler c data) st).effects ++
            (forEachCallback env data rest
              (runScript env (env.handler c data) st).state).effects)) =
          c :: invokedCallbacks (forEachCallback env data rest
              (runScript env (env.handler c data) st).state).effects := by
        have h1 := invokedCallbacks_append [Effect.callback c data st]
          ((runScript env (env.handler c data) st).effects ++
            (forEachCallback env data rest
              (runScript env (env.handler c data) st).state).effects)
        simp only [List.singleton_append] at h1
        rw [h1, invokedCallbacks_append, hnil]
        rfl
      rw [hval]
      simp only [hinv]
      have hrest := ih (runScript env (env.handler c data) st).state
      split at hrest
      · rw [hrest]
      · obtain ⟨pre, cb, post, before, h3, h4, h5⟩ := hrest
        exact ⟨c :: pre, cb, post, before, by rw [h3]; rfl, by rw [h4]; rfl, h5⟩

/-! ## Lemmas on socket close calls -/

theorem Socket.close_accepted (s : Socket) (code : Nat) (reason : String)
    (hcode : isValidStatusCode code = true) (hreason : ¬ 123 < reason.utf8ByteSize) :
    (s.close code reason).2 = none := by
  unfold Socket.close
  cases s.readyState <;> simp [hcode, hreason]

theorem Socket.close_unauthorized (s : Socket) : (s.close 4401 "Unauthorized").2 = none :=
  Socket.close_accepted s _ _ (by decide) (by decide)

theorem Socket.close_authentication_error (s : Socket) :
    (s.close 4500 "Authentication error").2 = none :=
  Socket.close_accepted s _ _ (by decide) (by decide)

theorem Socket.close_shutting_down (s : Socket) :
    (s.close 1000 "Server shutting down").2 = none :=
  Socket.close_accepted s _ _ (by decide) (by decide)

/-- The loop of `stop()` raises on no registry: every close call it makes is accepted. -/
theorem stopLoop_no_throw (l : List (String × ClientInfo)) : (stopLoop l).2 = none := by
  induction l with
  | nil => rfl
  | cons e rest ih =>
    obtain ⟨k, c⟩ := e
    simp only [stopLoop, Socket.close_shutting_down]
    split
    · exact ih
    · exact ih

/-! ## Accepting a connection -/

/-- C4: with an authentication hook configured, a falsy result and a raised exception both
leave the instance state (the registry included) as it was, invoke no subscribed callback
and close the socket: the only effect is one close call, with code 4401 for a falsy result
and with the different code 4500 for an exception. -/
theorem auth_rejection_leaves_registry (env : Env) (st : ServerState) (clientId : String)
    (now : Nat) (socket : Socket) (request : Request) (auth : AuthHandler)
    (hauth : st.authHandler = some auth) :
    (∀ v, auth request = .ok v → v.truthy = false →
      handleNewConnection env clientId now socket request st =
        ⟨st, [Effect.close clientId 4401 "Unauthorized"], .ok ()⟩) ∧
    (∀ e, auth request = .error e →
      handleNewConnection env clientId now socket request st =
        ⟨st, [Effect.close clientId 4500 "Authentication error"], .ok ()⟩) ∧
    (4401 : Nat) ≠ 4500 := by
  refine ⟨?_, ?_, by decide⟩
  · intro v hv ht
    simp only [handleNewConnection, hauth, hv, ht, Bool.not_false, if_true,
      Socket.close_unauthorized]
  · intro e he
    simp only [handleNewConnection, hauth, he, Socket.close_authentication_error]

/-- C4, applied: a hook returning `false` and a hook that raises, on a registry of three
peers. -/
theorem auth_rejection_leaves_registry_witness :
    handleNewConnection sampleEnv "d" 5 (sampleSocket false) proxiedRequest
        { threePeers with authHandler := some denyAll } =
      ⟨{ threePeers with authHandler := some denyAll },
        [Effect.close "d" 4401 "Unauthorized"], .ok ()⟩ ∧
    handleNewConnection sampleEnv "d" 5 (sampleSocket false) proxiedRequest
        { threePeers with authHandler := some faultyAuth } =
      ⟨{ threePeers with authHandler := some faultyAuth },
        [Effect.close "d" 4500 "Authentication error"], .ok ()⟩ :=
  ⟨(auth_rejection_leaves_registry sampleEnv { threePeers with authHandler := some denyAll }
      "d" 5 (sampleSocket false) proxiedRequest denyAll rfl).1 (JsValue.bool false) rfl rfl,
   (auth_rejection_leaves_registry sampleEnv { threePeers with authHandler := some faultyAuth }
      "d" 5 (sampleSocket false) proxiedRequest faultyAuth rfl).2.1
        (JsValue.string "auth backend unreachable") rfl⟩

theorem handleNewConnection_accepted (env : Env) (st : ServerState) (clientId : String)
    (now : Nat) (socket : Socket) (request : Request)
    (haccept : st.authHandler = none ∨
      ∃ auth v, st.authHandler = some auth ∧ auth request = .ok v ∧ v.truthy = true) :
    handleNewConnection env clientId now socket request st =
      acceptConnection env clientId now socket request st := by
  rcases haccept with h | ⟨auth, v, h1, h2, h3⟩
  · simp only [handleNewConnection, h]
  · simp [handleNewConnection, h1, h2, h3]

theorem triggerEvent_core (env : Env) (event : String) (data : EventData) (st : ServerState) :
    (triggerEvent env event data st).state.clients.map entryCore
      = st.clients.map entryCore := by
  unfold triggerEvent
  split
  · rfl
  · exact forEachCallback_core env data _ st

theorem triggerEvent_before (env : Env) (event : String) (data : EventData)
    (st : ServerState) (cb : HandlerId) (d : EventData) (before : ServerState)
    (h : Effect.callback cb d before ∈ (triggerEvent env event data st).effects) :
    d = data ∧ before.clients.map entryCore = st.clients.map entryCore := by
  unfold triggerEvent at h
  split at h
  · simp at h
  · have := forEachCallback_before env data _ st cb d before h
    exact ⟨this.1, this.2.2⟩

theorem triggerEvent_readOnly (env : Env) (event : String) (data : EventData)
    (st : ServerState) (hro : ∀ cb, (env.handler cb data).ReadOnly) :
    (triggerEvent env event data st).state.clients = st.clients := by
  unfold triggerEvent
  split
  · rfl
  · exact forEachCallback_readOnly env data _ st (fun cb _ => hro cb)

theorem mapDelete_cons (k' k : String) (v : ClientInfo) (rest : List (String × ClientInfo)) :
    mapDelete ((k', v) :: rest) k =
      if k' = k then mapDelete rest k else (k', v) :: mapDelete rest k := by
  simp only [mapDelete, List.filter_cons]
  split_ifs <;> simp_all

theorem mapKeys_mapDelete (m : List (String × ClientInfo)) (k : String) :
    mapKeys (mapDelete m k) = (mapKeys m).filter (fun id => id ≠ k) := by
  induction m with
  | nil => rfl
  | cons e rest ih =>
    obtain ⟨k', v⟩ := e
    rw [mapDelete_cons]
    by_cases hk : k' = k
    · rw [if_pos hk, ih]
      simp [mapKeys, List.filter_cons, hk]
    · rw [if_neg hk]
      have : mapKeys ((k', v) :: mapDelete rest k) = k' :: mapKeys (mapDelete rest k) := rfl
      rw [this, ih]
      simp [mapKeys, List.filter_cons, hk]

theorem mapGet_mapDelete_other (m : List (String × ClientInfo)) (k other : String)
    (hne : other ≠ k) : mapGet (mapDelete m k) other = mapGet m other := by
  induction m with
  | nil => rfl
  | cons e rest ih =>
    obtain ⟨k', v⟩ := e
    rw [mapDelete_cons]
    by_cases hk : k' = k
    · have hko : ¬ k' = other := by rw [hk]; exact fun h => hne h.symm
      rw [if_pos hk, ih]
      simp [mapGet, hko]
    · rw [if_neg hk]
      by_cases hko : k' = other
      · simp [mapGet, hko]
      · simp [mapGet, hko, ih]

/-- C5: an accepted connection whose generated id is fresh is registered exactly once and
the count grows by one; once the close signal of a connection has been handled its id is no
longer registered, the other ids are registered as before, in the same order, and (the
subscribed `close` callbacks making no write of their own) every other entry is the one
that was there. -/
theorem accept_registers_close_removes (env : Env) (st s : ServerState) (clientId : String)
    (now : Nat) (socket : Socket) (request : Request) (code : Nat) (reason : Option String)
    (hfresh : clientId ∉ getClientIds st)
    (haccept : st.authHandler = none ∨
      ∃ auth v, st.authHandler = some auth ∧ auth request = .ok v ∧ v.truthy = true) :
    getClientIds (handleNewConnection env clientId now socket request st).state
      = getClientIds st ++ [clientId] ∧
    (getClientIds (handleNewConnection env clientId now socket request st).state).count
      clientId = 1 ∧
    getClientCount (handleNewConnection env clientId now socket request st).state
      = getClientCount st + 1 ∧
    clientId ∉ getClientIds (socketOnClose env clientId code reason s).state ∧
    getClientIds (socketOnClose env clientId code reason s).state
      = (getClientIds s).filter (fun id => id ≠ clientId) ∧
    ((∀ cb, (env.handler cb (EventData.close clientId code (closeReason reason))).ReadOnly) →
      ∀ other, other ≠ clientId →
        mapGet (socketOnClose env clientId code reason s).state.clients other
          = mapGet s.clients other) := by
  have hids : getClientIds (handleNewConnection env clientId now socket request st).state
      = getClientIds st ++ [clientId] := by
    rw [handleNewConnection_accepted env st clientId now socket request haccept]
    unfold acceptConnection getClientIds
    rw [mapKeys_eq_of_entryCore _ _ (triggerEvent_core env _ _ _)]
    simp only
    rw [mapKeys_mapSet_of_not_mem _ _ _ hfresh]
    simp [mapKeys]
  have hclose : getClientIds (socketOnClose env clientId code reason s).state
      = (getClientIds s).filter (fun id => id ≠ clientId) := by
    unfold socketOnClose getClientIds
    rw [mapKeys_eq_of_entryCore _ _ (triggerEvent_core env _ _ _)]
    exact mapKeys_mapDelete _ _
  refine ⟨hids, ?_, ?_, ?_, hclose, ?_⟩
  · rw [hids, List.count_append, List.count_eq_zero_of_not_mem hfresh]
    simp
  · have := congrArg List.length hids
    simpa [getClientIds, getClientCount, mapKeys] using this
  · rw [hclose]
    simp [List.mem_filter]
  · intro hro other hne
    unfold socketOnClose
    rw [triggerEvent_readOnly env _ _ _ hro]
    exact mapGet_mapDelete_other _ _ _ hne

/-- C5, applied: a fourth peer `d` is accepted into a registry of three and later closes. -/
theorem accept_registers_close_removes_witness :
    getClientIds (handleNewConnection sampleEnv "d" 5 (sampleSocket false) proxiedRequest
      threePeers).state = ["a", "b", "c", "d"] ∧
    getClientIds (socketOnClose sampleEnv "d" 1000 none
      (handleNewConnection sampleEnv "d" 5 (sampleSocket false) proxiedRequest
        threePeers).state).state = ["a", "b", "c"] := by
  have h := accept_registers_close_removes sampleEnv threePeers
    (handleNewConnection sampleEnv "d" 5 (sampleSocket false) proxiedRequest threePeers).state
    "d" 5 (sampleSocket false) proxiedRequest 1000 none (by decide) (Or.inl rfl)
  exact ⟨h.1, h.2.2.2.2.1⟩

/-! ## Closing a connection -/

/-- C6: every callback invoked by the close listener of connection `clientId` is handed the
`close` payload of that connection and runs in a state from which the id is already gone:
`getClientInfo(clientId)` is `null` and `getClientIds()` does not contain it. -/
theorem close_callbacks_see_removed (env : Env) (s : ServerState) (clientId : String)
    (code : Nat) (reason : Option String) (cb : HandlerId) (d : EventData)
    (before : ServerState)
    (h : Effect.callback cb d before ∈ (socketOnClose env clientId code reason s).effects) :
    d = EventData.close clientId code (closeReason reason) ∧
    getClientInfo clientId before = none ∧
    clientId ∉ getClientIds before := by
  unfold socketOnClose at h
  have hb := triggerEvent_before env _ _ _ cb d before h
  have hkeys := mapKeys_eq_of_entryCore _ _ hb.2
  simp only at hkeys
  have hnot : clientId ∉ getClientIds before := by
    unfold getClientIds
    rw [hkeys, mapKeys_mapDelete]
    simp [List.mem_filter]
  refine ⟨hb.1, ?_, hnot⟩
  unfold getClientInfo
  rw [mapGet_eq_none_of_not_mem _ _ hnot]

/-- C6, applied: peer `b` closes while callbacks 1 and 2 are subscribed to `close`; the
first callback runs in a state without `b`. -/
theorem close_callbacks_see_removed_witness :
    getClientIds twoCloseSubscribers = ["a", "b", "c"] ∧
    ∃ before,
      Effect.callback 1 (EventData.close "b" 1001 "") before
        ∈ (socketOnClose sampleEnv "b" 1001 none twoCloseSubscribers).effects ∧
      getClientIds before = ["a", "c"] ∧
      getClientInfo "b" before = none :=
  ⟨rfl, _, List.mem_cons_self _ _, rfl,
    (close_callbacks_see_removed sampleEnv twoCloseSubscribers "b" 1001 none 1 _ _
      (List.mem_cons_self _ _)).2.1⟩

/-! ## The publish pass -/

/-- C7 (as stated) fails: with callbacks 1 and 2 subscribed to `close`, in this order, and
callback 1 raising, the pass invokes callback 1 only and the exception leaves
`_triggerEvent`. -/
theorem publish_isolation_counterexample :
    mapGet twoCloseSubscribers.eventListeners "close" = some [1, 2] ∧
    invokedCallbacks
      (triggerEvent failingFirstEnv "close" EventData.serverStopped twoCloseSubscribers).effects
        = [1] ∧
    (triggerEvent failingFirstEnv "close" EventData.serverStopped twoCloseSubscribers).result
      = .error (JsValue.string "subscriber failed") :=
  ⟨rfl, rfl, rfl⟩

theorem forEachCallback_cons_error (env : Env) (data : EventData) (c : HandlerId)
    (rest : List HandlerId) (st : ServerState) (e : JsValue)
    (hr : (runScript env (env.handler c data) st).result = .error e) :
    forEachCallback env data (c :: rest) st =
      ⟨(runScript env (env.handler c data) st).state,
        Effect.callback c data st :: (runScript env (env.handler c data) st).effects,
        .error e⟩ := by
  simp only [forEachCallback, hr]

theorem forEachCallback_cons_ok (env : Env) (data : EventData) (c : HandlerId)
    (rest : List HandlerId) (st : ServerState) (u : Unit)
    (hr : (runScript env (env.handler c data) st).result = .ok u) :
    forEachCallback env data (c :: rest) st =
      ⟨(forEachCallback env data rest (runScript env (env.handler c data) st).state).state,
        Effect.callback c data st :: ((runScript env (env.handler c data) st).effects ++
          (forEachCallback env data rest (runScript env (env.handler c data) st).state).effects),
        (forEachCallback env data rest (runScript env (env.handler c data) st).state).result⟩ := by
  simp only [forEachCallback, hr]

/-- A pass over `pre ++ rest` whose callbacks in `pre` do not raise is the pass over `pre`
followed by the pass over `rest` in the state the first one left. -/
theorem forEachCallback_append (env : Env) (data : EventData) (pre rest : List HandlerId)
    (st : ServerState) (hok : (forEachCallback env data pre st).result = .ok ()) :
    forEachCallback env data (pre ++ rest) st =
      ⟨(forEachCallback env data rest (forEachCallback env data pre st).state).state,
        (forEachCallback env data pre st).effects ++
          (forEachCallback env data rest (forEachCallback env data pre st).state).effects,
        (forEachCallback env data rest (forEachCallback env data pre st).state).result⟩ := by
  induction pre generalizing st with
  | nil => simp [forEachCallback]
  | cons c pre ih =>
    cases hr : (runScript env (env.handler c data) st).result with
    | error e =>
      rw [forEachCallback_cons_error env data c pre st e hr] at hok
      cases hok
    | ok u =>
      rw [forEachCallback_cons_ok env data c pre st u hr] at hok
      simp only at hok
      rw [List.cons_append, forEachCallback_cons_ok env data c (pre ++ rest) st u hr,
        forEachCallback_cons_ok env data c pre st u hr, ih _ hok]
      simp

/-- C7 (amended): a publish pass over the callbacks subscribed to an event invokes them in
subscription order; when none raises, each is invoked exactly once and the pass returns;
when one raises, the pass ends there: the callbacks before it and it have been invoked, the
ones after it are not, and its exception leaves `_triggerEvent`. The last part is stated in
both directions: a pass that raised stopped at a raising callback, and whenever the
callbacks before `cb` return and `cb` raises `e` in the state they left, the pass raises `e`
after invoking exactly those callbacks and `cb`. -/
theorem publish_stops_at_first_throw (env : Env) (event : String) (data : EventData)
    (st : ServerState) (cbs : List HandlerId)
    (hsub : mapGet st.eventListeners event = some cbs) :
    (match (triggerEvent env event data st).result with
    | .ok _ => invokedCallbacks (triggerEvent env event data st).effects = cbs
    | .error e =>
      ∃ pre cb post before, cbs = pre ++ cb :: post ∧
        invokedCallbacks (triggerEvent env event data st).effects = pre ++ [cb] ∧
        (runScript env (env.handler cb data) before).result = .error e) ∧
    (∀ pre cb post e, cbs = pre ++ cb :: post →
      (forEachCallback env data pre st).result = .ok () →
      (runScript env (env.handler cb data) (forEachCallback env data pre st).state).result
        = .error e →
      (triggerEvent env event data st).result = .error e ∧
      invokedCallbacks (triggerEvent env event data st).effects = pre ++ [cb] ∧
      (triggerEvent env event data st).state =
        (runScript env (env.handler cb data) (forEachCallback env data pre st).state).state ∧
      (∀ c d before, Effect.callback c d before ∈ (triggerEvent env event data st).effects →
        c ∈ pre ++ [cb])) := by
  have hval : triggerEvent env event data st = forEachCallback env data cbs st := by
    simp only [triggerEvent, hsub]
  rw [hval]
  refine ⟨forEachCallback_invoked env data cbs st, ?_⟩
  intro pre cb post e hcbs hpre hthrow
  have hinvPre := forEachCallback_invoked env data pre st
  rw [hpre] at hinvPre
  simp only at hinvPre
  have hnil := invokedCallbacks_eq_nil _
    (runScript_core env (env.handler cb data) (forEachCallback env data pre st).state).2
  have hall : forEachCallback env data cbs st =
      ⟨(runScript env (env.handler cb data) (forEachCallback env data pre st).state).state,
        (forEachCallback env data pre st).effects ++
          (Effect.callback cb data (forEachCallback env data pre st).state ::
            (runScript env (env.handler cb data)
              (forEachCallback env data pre st).state).effects),
        .error e⟩ := by
    rw [hcbs, forEachCallback_append env data pre (cb :: post) st hpre,
      forEachCallback_cons_error env data cb post _ e hthrow]
  have hinv : invokedCallbacks (forEachCallback env data cbs st).effects = pre ++ [cb] := by
    rw [hall]
    simp only
    rw [invokedCallbacks_append, hinvPre]
    have h1 := invokedCallbacks_append
      [Effect.callback cb data (forEachCallback env data pre st).state]
      (runScript env (env.handler cb data) (forEachCallback env data pre st).state).effects
    simp only [List.singleton_append] at h1
    rw [h1, hnil]
    rfl
  refine ⟨by rw [hall], hinv, by rw [hall], ?_⟩
  intro c d before hmem
  have hc : c ∈ invokedCallbacks (forEachCallback env data cbs st).effects := by
    unfold invokedCallbacks
    rw [List.mem_filterMap]
    exact ⟨_, hmem, rfl⟩
  rw [hinv] at hc
  exact hc

/-- C7 (amended), applied: when no callback raises, both subscribers of `close` are
invoked, in order; with callbacks 1, 2 and 3 subscribed to `message` and callback 2 raising,
the pass raises that exception after invoking callbacks 1 and 2, and callback 3 is not
invoked. -/
theorem publish_stops_at_first_throw_witness :
    invokedCallbacks
      (triggerEvent sampleEnv "close" EventData.serverStopped twoCloseSubscribers).effects
        = [1, 2] ∧
    (triggerEvent failingSecondEnv "message"
      (EventData.message "a" (JsValue.string "hi") (JsValue.string "hi"))
      threeMessageSubscribers).result = .error (JsValue.string "subscriber failed") ∧
    invokedCallbacks (triggerEvent failingSecondEnv "message"
      (EventData.message "a" (JsValue.string "hi") (JsValue.string "hi"))
      threeMessageSubscribers).effects = [1, 2] := by
  have h1 := (publish_stops_at_first_throw sampleEnv "close" EventData.serverStopped
    twoCloseSubscribers [1, 2] rfl).1
  have h2 := (publish_stops_at_first_throw failingSecondEnv "message"
    (EventData.message "a" (JsValue.string "hi") (JsValue.string "hi"))
    threeMessageSubscribers [1, 2, 3] rfl).2 [1] 2 [3] (JsValue.string "subscriber failed")
    rfl rfl rfl
  exact ⟨h1, h2.1, h2.2.1⟩

/-! ## The recorded address -/

/-- C8 (as stated) fails: for a request with socket address `10.0.0.1` and a forwarded-for
header whose first entry is `203.0.113.7`, the accepted connection is recorded, and
announced to the `connection` callbacks, with `10.0.0.1`. -/
theorem forwarded_for_counterexample :
    forwardedAddress proxiedRequest = some "203.0.113.7" ∧
    (getClientInfo "d" (handleNewConnection sampleEnv "d" 5 (sampleSocket false)
      proxiedRequest (onEvent "connection" 3 threePeers)).state).map (fun info => info.ip)
        = some (some "10.0.0.1") ∧
    (handleNewConnection sampleEnv "d" 5 (sampleSocket false) proxiedRequest
      (onEvent "connection" 3 threePeers)).effects =
      [Effect.callback 3 (EventData.connection "d" (some "10.0.0.1") proxiedRequest)
        { onEvent "connection" 3 threePeers with
          clients := threePeers.clients ++
            [("d", { socket := sampleSocket false, ip := some "10.0.0.1", connectTime := 5,
                     metadata := [] })] }] :=
  ⟨by decide, by decide, rfl⟩

/-- C8 (amended): for every accepted connection, the address in the registry entry and in
the `connection` event is the raw socket `remoteAddress` whenever that is a non-empty
string, and the first comma-separated, trimmed entry of the x-forwarded-for header only when
the socket address is missing or empty (`undefined` when the header is missing too). -/
theorem recorded_address_prefers_socket (env : Env) (st : ServerState) (clientId : String)
    (now : Nat) (socket : Socket) (request : Request)
    (haccept : st.authHandler = none ∨
      ∃ auth v, st.authHandler = some auth ∧ auth request = .ok v ∧ v.truthy = true) :
    (∃ info,
      getClientInfo clientId (handleNewConnection env clientId now socket request st).state
        = some info ∧ info.ip = clientIp request) ∧
    (∀ cb d before,
      Effect.callback cb d before
        ∈ (handleNewConnection env clientId now socket request st).effects →
      d = EventData.connection clientId (clientIp request) request) ∧
    (∀ address, request.remoteAddress = some address → address ≠ "" →
      clientIp request = some address) ∧
    ((request.remoteAddress = none ∨ request.remoteAddress = some "") →
      clientIp request =
        request.forwardedFor.map (fun header => jsTrim (firstCommaEntry header))) := by
  rw [handleNewConnection_accepted env st clientId now socket request haccept]
  refine ⟨?_, ?_, ?_, ?_⟩
  · have hcore : (mapGet (acceptConnection env clientId now socket request st).state.clients
        clientId).map (fun c => (c.ip, c.connectTime)) = some (clientIp request, now) := by
      unfold acceptConnection
      simp only
      rw [mapGet_ip_of_entryCore _ _ clientId (triggerEvent_core env _ _ _)]
      simp only [mapGet_mapSet_same, Option.map_some']
    unfold getClientInfo
    cases hget : mapGet (acceptConnection env clientId now socket request st).state.clients
        clientId with
    | none =>
      rw [hget] at hcore
      simp at hcore
    | some c =>
      rw [hget] at hcore
      simp only [Option.map_some', Option.some.injEq, Prod.mk.injEq] at hcore
      exact ⟨_, rfl, hcore.1⟩
  · intro cb d before h
    unfold acceptConnection at h
    exact (triggerEvent_before env _ _ _ cb d before h).1
  · intro address h1 h2
    simp [clientIp, h1, h2]
  · intro h
    rcases h with h | h
    · simp only [clientIp, h, forwardedAddress]
      cases request.forwardedFor <;> rfl
    · simp only [clientIp, h, forwardedAddress]
      cases request.forwardedFor <;> simp

/-- C8 (amended), applied: the proxied request is recorded with its socket address; the
same request without a socket address is recorded with the first forwarded entry. -/
theorem recorded_address_prefers_socket_witness :
    clientIp proxiedRequest = some "10.0.0.1" ∧
    clientIp { proxiedRequest with remoteAddress := none } = some "203.0.113.7" :=
  ⟨(recorded_address_prefers_socket sampleEnv threePeers "d" 5 (sampleSocket false)
      proxiedRequest (Or.inl rfl)).2.2.1 "10.0.0.1" rfl (by decide),
   by decide⟩

/-! ## `start` and `stop` -/

/-- C9 fails on the code: on a fresh instance whose listener is constructed but not bound,
`start()` has already fulfilled its promise when it returns, and a bind error reported
afterwards through the `error` signal of the server leaves the promise fulfilled. -/
theorem start_fulfils_before_bind :
    (start sampleEnv freshInstance).promise = PromiseState.fulfilled ∧
    (start sampleEnv freshInstance).state.server
      = some { port := 8080, path := "/", bound := false } ∧
    ∀ error, (serverOnError sampleEnv error (start sampleEnv freshInstance)).promise
      = PromiseState.fulfilled :=
  ⟨rfl, rfl, fun _ => rfl⟩

/-- C10: when `stop()` has resolved, the registry is empty, and a second `stop()` resolves
at once with no call on any socket or on the listener and leaves the (empty) registry as it
is; on an instance that holds no listener `stop()` resolves with no effect at all. -/
theorem stop_twice_resolves (env : Env) (st : ServerState) (first second : CloseResult)
    (hinv : st.server = none → st.clients = [])
    (hresolved : (stop env first st).promise = PromiseState.fulfilled) :
    getClientCount (stop env first st).state = 0 ∧
    stop env second (stop env first st).state
      = ⟨(stop env first st).state, [], PromiseState.fulfilled⟩ ∧
    getClientCount (stop env second (stop env first st).state).state = 0 ∧
    (st.server = none → stop env first st = ⟨st, [], PromiseState.fulfilled⟩) := by
  obtain ⟨port, path, server, clients, listeners, auth, cors⟩ := st
  cases server with
  | none =>
    have hc : clients = [] := hinv rfl
    subst hc
    exact ⟨rfl, rfl, rfl, fun _ => rfl⟩
  | some listener =>
    have hloop := stopLoop_no_throw clients
    cases first with
    | never =>
      simp [stop, hloop] at hresolved
    | called error =>
      cases error with
      | some e =>
        simp [stop, hloop, PromiseState.reject] at hresolved
      | none =>
        cases hr : (triggerEvent env "close" EventData.serverStopped
            ⟨port, path, some listener, [], listeners, auth, cors⟩).result with
        | error e =>
          simp [stop, hloop, hr] at hresolved
        | ok u =>
          have hcore := triggerEvent_core env "close" EventData.serverStopped
            ⟨port, path, some listener, [], listeners, auth, cors⟩
          simp only [List.map_nil, List.map_eq_nil_iff] at hcore
          have hstate : (stop env (CloseResult.called none)
              ⟨port, path, some listener, clients, listeners, auth, cors⟩).state =
              { (triggerEvent env "close" EventData.serverStopped
                  ⟨port, path, some listener, [], listeners, auth, cors⟩).state with
                server := none } := by
            simp only [stop, hloop, hr]
          rw [hstate]
          refine ⟨?_, rfl, ?_, fun h => by simp at h⟩
          · simp [getClientCount, hcore]
          · simp [stop, getClientCount, hcore]

/-- C10, applied: a started instance with three peers is stopped twice; the first call
closes the three sockets and the listener, the second call does nothing. -/
theorem stop_twice_resolves_witness :
    (stop sampleEnv (CloseResult.called none) threePeers).effects =
      [Effect.close "a" 1000 "Server shutting down", Effect.close "b" 1000 "Server shutting down",
        Effect.close "c" 1000 "Server shutting down", Effect.serverClose] ∧
    getClientCount (stop sampleEnv (CloseResult.called none) threePeers).state = 0 ∧
    (stop sampleEnv (CloseResult.called none)
      (stop sampleEnv (CloseResult.called none) threePeers).state).effects = [] := by
  have h := stop_twice_resolves sampleEnv threePeers (CloseResult.called none)
    (CloseResult.called none) (fun h => by simp [threePeers, sampleState] at h) rfl
  refine ⟨rfl, h.1, ?_⟩
  rw [h.2.1]

/-! ## Send failures in `broadcast` -/

theorem reachedBy_cons (ex : Option String) (k : String) (c : ClientInfo)
    (rest : List (String × ClientInfo)) :
    reachedBy ex ((k, c) :: rest) =
      if isExcluded ex k = false ∧ c.socket.readyState = ReadyState.OPEN
      then (k, c) :: reachedBy ex rest else reachedBy ex rest := by
  simp only [reachedBy, List.filter_cons]
  split_ifs <;> simp_all

theorem acceptedBy_cons (payload : JsValue) (k : String) (c : ClientInfo)
    (rest : List (String × ClientInfo)) :
    acceptedBy payload ((k, c) :: rest) =
      if c.socket.sendThrows payload = false
      then (k, c) :: acceptedBy payload rest else acceptedBy payload rest := by
  simp only [acceptedBy, List.filter_cons]
  split_ifs <;> simp_all

/-- The loop of `broadcast`, for any exclusion: one `send` per reached entry, in registry
order, whether or not an earlier `send` raised, and one count per `send` that returned. -/
theorem broadcastLoop_reached (payload : JsValue) (ex : Option String)
    (l : List (String × ClientInfo)) (n : Nat) :
    broadcastLoop payload ex l n =
      (n + (acceptedBy payload (reachedBy ex l)).length,
       (reachedBy ex l).map
         (fun e => Effect.send e.1 payload (e.2.socket.sendThrows payload))) := by
  induction l generalizing n with
  | nil => rfl
  | cons e rest ih =>
    obtain ⟨k, c⟩ := e
    rw [reachedBy_cons]
    simp only [broadcastLoop]
    by_cases hx : isExcluded ex k = true
    · simp [hx, ih]
    · simp only [Bool.not_eq_true] at hx
      by_cases ho : c.socket.readyState = ReadyState.OPEN
      · by_cases ht : c.socket.sendThrows payload = true
        · simp [hx, ho, ht, ih, acceptedBy_cons]
        · simp only [Bool.not_eq_true] at ht
          simp [hx, ho, ht, ih, acceptedBy_cons]
          omega
      · simp [hx, ho, ih]

/-- C11: once the payload is serialized, `broadcast` calls `send` on every non-excluded
`OPEN` connection, in registry order, whatever the earlier `send` calls did; it counts
exactly the calls that returned and returns that count; it raises only when the
serialization itself raised, before any `send`. -/
theorem broadcast_isolates_send_failures (env : Env) (st : ServerState) (data : JsValue)
    (ex : Option String) :
    (∀ payload, serialize env data = .ok payload →
      (broadcast env data ex st).state = st ∧
      (broadcast env data ex st).effects =
        (reachedBy ex st.clients).map
          (fun e => Effect.send e.1 payload (e.2.socket.sendThrows payload)) ∧
      (∀ id c, (id, c) ∈ st.clients → isExcluded ex id = false →
        c.socket.readyState = ReadyState.OPEN →
        Effect.send id payload (c.socket.sendThrows payload)
          ∈ (broadcast env data ex st).effects) ∧
      (broadcast env data ex st).result =
        .ok (acceptedBy payload (reachedBy ex st.clients)).length) ∧
    (∀ e, serialize env data = .error e → broadcast env data ex st = ⟨st, [], .error e⟩) := by
  refine ⟨?_, ?_⟩
  · intro payload hser
    have hb : broadcast env data ex st =
        ⟨st, (broadcastLoop payload ex st.clients 0).2,
          .ok (broadcastLoop payload ex st.clients 0).1⟩ := by
      simp only [broadcast, hser]
    rw [hb, broadcastLoop_reached]
    refine ⟨rfl, rfl, ?_, by simp⟩
    intro id c hmem hex ho
    simp only [List.mem_map]
    refine ⟨(id, c), ?_, rfl⟩
    simp only [reachedBy, List.mem_filter]
    exact ⟨hmem, by simp [hex, ho]⟩
  · intro e hser
    simp only [broadcast, hser]

/-- C11, applied: the `send` to the first peer raises; the two peers after it are still
sent `"hi"` and the result is 2. -/
theorem broadcast_isolates_send_failures_witness :
    (broadcast sampleEnv (JsValue.string "hi") none firstPeerFailing).effects =
      [Effect.send "a" (JsValue.string "hi") true, Effect.send "b" (JsValue.string "hi") false,
        Effect.send "c" (JsValue.string "hi") false] ∧
    (broadcast sampleEnv (JsValue.string "hi") none firstPeerFailing).result = .ok 2 := by
  have h := (broadcast_isolates_send_failures sampleEnv firstPeerFailing (JsValue.string "hi")
    none).1 (JsValue.string "hi") rfl
  exact ⟨h.2.1, h.2.2.2⟩

/-! ## `off` -/

theorem mapSet_same {V : Type} (m : List (String × V)) (k : String) (v : V)
    (h : mapGet m k = some v) : mapSet m k v = m := by
  induction m with
  | nil => cases h
  | cons e rest ih =>
    obtain ⟨k', v'⟩ := e
    by_cases hk : k' = k
    · simp only [mapGet, hk, if_true, Option.some.injEq] at h
      simp [mapSet, hk, h]
    · simp only [mapGet, hk, if_false] at h
      simp [mapSet, hk, ih h]

/-- C12 (as stated) fails: after callback 1 was subscribed twice to `close`, one `off`
leaves no subscription of it, not one. -/
theorem off_first_occurrence_counterexample :
    mapGet subscribedTwice.eventListeners "close" = some [1, 1] ∧
    mapGet (off "close" 1 subscribedTwice).eventListeners "close" = some [] :=
  ⟨rfl, rfl⟩

/-- C12 (amended): `off(event, handler)` removes every occurrence of the handler from the
subscriber list of the event and keeps the other entries of that list in order; the lists of
the other events and the registry are untouched; when the handler is not in the list, or the
event has no list, the instance is left as it was. -/
theorem off_removes_every_occurrence (st : ServerState) (event : String) (cb : HandlerId) :
    (∀ cbs, mapGet st.eventListeners event = some cbs →
      mapGet (off event cb st).eventListeners event = some (cbs.filter (fun c => c ≠ cb)) ∧
      (∀ cbs2, mapGet (off event cb st).eventListeners event = some cbs2 → cb ∉ cbs2)) ∧
    (∀ other, other ≠ event →
      mapGet (off event cb st).eventListeners other = mapGet st.eventListeners other) ∧
    (mapGet st.eventListeners event = none → off event cb st = st) ∧
    (∀ cbs, mapGet st.eventListeners event = some cbs → cb ∉ cbs → off event cb st = st) ∧
    (off event cb st).clients = st.clients := by
  refine ⟨?_, ?_, ?_, ?_, ?_⟩
  · intro cbs h
    have h1 : mapGet (off event cb st).eventListeners event
        = some (cbs.filter (fun c => c ≠ cb)) := by
      simp only [off, h, mapGet_mapSet_same]
    refine ⟨h1, ?_⟩
    intro cbs2 h2
    rw [h1] at h2
    injection h2 with h2
    rw [← h2]
    simp [List.mem_filter]
  · intro other hne
    unfold off
    split
    · rfl
    · exact mapGet_mapSet_other _ _ _ _ hne
  · intro h
    simp only [off, h]
  · intro cbs h hnot
    have hf : cbs.filter (fun c => c ≠ cb) = cbs := by
      rw [List.filter_eq_self]
      intro c hc
      simp only [ne_eq, decide_eq_true_eq]
      exact fun hcc => hnot (hcc ▸ hc)
    simp only [off, h, hf, mapSet_same _ _ _ h]
  · unfold off
    split <;> rfl

/-- C12 (amended), applied: with callbacks 1 and 2 subscribed to `close`, `off` of callback 3
changes nothing and `off` of callback 1 leaves callback 2. -/
theorem off_removes_every_occurrence_witness :
    off "close" 3 twoCloseSubscribers = twoCloseSubscribers ∧
    mapGet (off "close" 1 twoCloseSubscribers).eventListeners "close" = some [2] :=
  ⟨(off_removes_every_occurrence twoCloseSubscribers "close" 3).2.2.2.1 [1, 2] rfl
      (by decide),
   ((off_removes_every_occurrence twoCloseSubscribers "close" 1).1 [1, 2] rfl).1⟩

/-! ## Passes and subscriptions -/

theorem triggerEvent_of_subscribed (env : Env) (event : String) (data : EventData)
    (st : ServerState) (cbs : List HandlerId)
    (h : mapGet st.eventListeners event = some cbs) :
    triggerEvent env event data st = forEachCallback env data cbs st := by
  unfold triggerEvent
  rw [h]

/-- C13 (as stated) fails: with callbacks 1, 2 and 3 subscribed to `message`, in this order,
and callback 2 raising, the pass invokes callbacks 1 and 2 only: callback 3, subscribed when
the pass began, is not invoked. -/
theorem pass_snapshot_counterexample :
    mapGet threeMessageSubscribers.eventListeners "message" = some [1, 2, 3] ∧
    invokedCallbacks (triggerEvent failingSecondEnv "message"
      (EventData.message "a" (JsValue.string "hi") (JsValue.string "hi"))
      threeMessageSubscribers).effects = [1, 2] :=
  ⟨rfl, rfl⟩

/-- C13 (amended): a publish pass in which no callback raises invokes exactly the callbacks
that were subscribed to the event when the pass began, each once, in subscription order and
each with the data of the pass, whatever `on` / `off` calls the callbacks make meanwhile; a
later pass is run in the same way from the list those calls left behind. -/
theorem pass_runs_subscribers_at_start (env : Env) (event : String) (data later : EventData)
    (st : ServerState) (cbs cbs2 : List HandlerId)
    (hsub : mapGet st.eventListeners event = some cbs)
    (hok : (triggerEvent env event data st).result = .ok ())
    (hsub2 : mapGet (triggerEvent env event data st).state.eventListeners event = some cbs2)
    (hok2 : (triggerEvent env event later (triggerEvent env event data st).state).result
      = .ok ()) :
    invokedCallbacks (triggerEvent env event data st).effects = cbs ∧
    (∀ cb d before, Effect.callback cb d before ∈ (triggerEvent env event data st).effects →
      d = data ∧ cb ∈ cbs) ∧
    invokedCallbacks
      (triggerEvent env event later (triggerEvent env event data st).state).effects = cbs2 := by
  have hval := triggerEvent_of_subscribed env event data st cbs hsub
  have hval2 := triggerEvent_of_subscribed env event later
    (triggerEvent env event data st).state cbs2 hsub2
  have h1 := forEachCallback_invoked env data cbs st
  have h2 := forEachCallback_invoked env later cbs2 (triggerEvent env event data st).state
  rw [← hval] at h1
  rw [← hval2] at h2
  rw [hok] at h1
  rw [hok2] at h2
  refine ⟨h1, ?_, h2⟩
  intro cb d before hmem
  rw [hval] at hmem
  have := forEachCallback_before env data cbs st cb d before hmem
  exact ⟨this.1, this.2.1⟩

/-- C13 (amended), applied: callback 1 unsubscribes callback 2 from `close` during the pass;
this pass still invokes callbacks 1 and 2, the next one callback 1 only. -/
theorem pass_runs_subscribers_at_start_witness :
    invokedCallbacks
      (triggerEvent unsubscribingEnv "close" EventData.serverStopped
        twoCloseSubscribers).effects = [1, 2] ∧
    invokedCallbacks
      (triggerEvent unsubscribingEnv "close" EventData.serverStopped
        (triggerEvent unsubscribingEnv "close" EventData.serverStopped
          twoCloseSubscribers).state).effects = [1] := by
  have h := pass_runs_subscribers_at_start unsubscribingEnv "close" EventData.serverStopped
    EventData.serverStopped twoCloseSubscribers [1, 2] [1] rfl rfl rfl rfl
  exact ⟨h.1, h.2.2⟩

/-! ## Unknown ids -/

/-- C15: for an id that is not registered, `getClientInfo` returns `null`, and
`setClientMetadata` and `disconnectClient` return false; the two calls raise nothing, make
no call on any socket and leave the whole instance, the registry included, as it was. -/
theorem unknown_id_is_noop (st : ServerState) (id : String) (patch : JsObject) (code : Nat)
    (reason : String) (hunknown : id ∉ getClientIds st) :
    getClientInfo id st = none ∧
    setClientMetadata id patch st = ⟨st, [], .ok false⟩ ∧
    disconnectClient id code reason st = ⟨st, [], .ok false⟩ := by
  have hget : mapGet st.clients id = none := mapGet_eq_none_of_not_mem _ _ hunknown
  refine ⟨?_, ?_, ?_⟩
  · simp only [getClientInfo, hget]
  · simp only [setClientMetadata, hget]
  · simp only [disconnectClient, hget]

/-- C15, applied: the id `nobody` on a registry of three peers. -/
theorem unknown_id_is_noop_witness :
    getClientInfo "nobody" threePeers = none ∧
    setClientMetadata "nobody" [("a", JsValue.number 1)] threePeers
      = ⟨threePeers, [], .ok false⟩ ∧
    disconnectClient "nobody" 1000 "Disconnected by server" threePeers
      = ⟨threePeers, [], .ok false⟩ :=
  unknown_id_is_noop threePeers "nobody" [("a", JsValue.number 1)] 1000
    "Disconnected by server" (by decide)

/-! ## Starting twice -/

theorem setClientMetadata_server (clientId : String) (metadata : JsObject) (st : ServerState) :
    (setClientMetadata clientId metadata st).state.server = st.server := by
  unfold setClientMetadata
  split <;> rfl

theorem disconnectClient_server (clientId : String) (code : Nat) (reason : String)
    (st : ServerState) : (disconnectClient clientId code reason st).state.server = st.server := by
  unfold disconnectClient
  split
  · rfl
  · split
    · simp only
      cases (Socket.close _ code reason).2 <;> rfl
    · rfl

/-- A callback body leaves the listener held by the instance in place. -/
theorem runScript_server (env : Env) (s : Script) (st : ServerState) :
    (runScript env s st).state.server = st.server := by
  induction s generalizing st with
  | done => rfl
  | throw e => rfl
  | onEvent event cb k ih =>
    simp only [runScript]
    rw [ih]
    unfold onEvent
    split <;> rfl
  | off event cb k ih =>
    simp only [runScript]
    rw [ih]
    unfold off
    split <;> rfl
  | sendTo clientId data k ih =>
    simp only [runScript]
    split
    · rw [sendTo_state]
    · next b _ => rw [ih b, sendTo_state]
  | broadcast data excludeClientId k ih =>
    simp only [runScript]
    rw [ih, broadcast_state]
  | getClientCount k ih =>
    simp only [runScript]
    exact ih _ st
  | getClientIds k ih =>
    simp only [runScript]
    exact ih _ st
  | getClientInfo clientId k ih =>
    simp only [runScript]
    exact ih _ st
  | setClientMetadata clientId metadata k ih =>
    simp only [runScript]
    split
    · exact setClientMetadata_server clientId metadata st
    · next b _ => rw [ih b, setClientMetadata_server]
  | disconnectClient clientId code reason k ih =>
    simp only [runScript]
    split
    · exact disconnectClient_server clientId code reason st
    · next b _ => rw [ih b, disconnectClient_server]

theorem forEachCallback_server (env : Env) (data : EventData) (cbs : List HandlerId)
    (st : ServerState) : (forEachCallback env data cbs st).state.server = st.server := by
  induction cbs generalizing st with
  | nil => rfl
  | cons cb rest ih =>
    simp only [forEachCallback]
    split
    · exact runScript_server env _ st
    · simp only
      rw [ih, runScript_server]

theorem triggerEvent_server (env : Env) (event : String) (data : EventData)
    (st : ServerState) : (triggerEvent env event data st).state.server = st.server := by
  unfold triggerEvent
  split
  · rfl
  · exact forEachCallback_server env data _ st

/-- C16 (as stated) fails: `start()` on a started instance, whose bound listener is in
`this.server`, constructs a second listener, puts it in place of the running one and
fulfils. -/
theorem double_start_counterexample :
    threePeers.server = some { port := 8080, path := "/", bound := true } ∧
    (start sampleEnv threePeers).state.server
      = some { port := 8080, path := "/", bound := false } ∧
    (start sampleEnv threePeers).effects = [Effect.listen 8080 "/"] ∧
    (start sampleEnv threePeers).promise = PromiseState.fulfilled :=
  ⟨rfl, rfl, rfl, rfl⟩

/-- C16 (amended): `start()` has no guard against a second start: on an instance that holds
a running listener it constructs another listener for the same port and path and, when the
constructor returns, holds the new listener instead of the running one; the promise is
fulfilled unless a `listening` callback raises. It rejects without touching the instance
only when the constructor itself throws. -/
theorem start_replaces_running_listener (env : Env) (st : ServerState) (running : Listener)
    (hrunning : st.server = some running) :
    Effect.listen st.port st.path ∈ (start env st).effects ∧
    (∀ fresh, env.newServer st.port st.path = .ok fresh →
      (start env st).state.server = some fresh ∧
      (fresh ≠ running → (start env st).state.server ≠ st.server) ∧
      ((triggerEvent env "listening" (EventData.listening st.port st.path)
          { st with server := some fresh }).result = .ok () →
        (start env st).promise = PromiseState.fulfilled) ∧
      (∀ e, (triggerEvent env "listening" (EventData.listening st.port st.path)
          { st with server := some fresh }).result = .error e →
        (start env st).promise = PromiseState.rejected e)) ∧
    (∀ e, env.newServer st.port st.path = .error e →
      (start env st).state = st ∧ (start env st).promise = PromiseState.rejected e) := by
  refine ⟨?_, ?_, ?_⟩
  · unfold start
    split
    · exact List.mem_cons_self _ _
    · simp only
      split <;> exact List.mem_cons_self _ _
  · intro fresh hnew
    have hserver := triggerEvent_server env "listening"
      (EventData.listening st.port st.path) { st with server := some fresh }
    have hheld : (start env st).state.server = some fresh := by
      simp only [start, hnew]
      split <;> exact hserver
    refine ⟨hheld, ?_, ?_, ?_⟩
    · intro hne heq
      rw [hheld, hrunning] at heq
      exact hne (Option.some.inj heq)
    · intro hok
      simp only [start, hnew, hok]
      rfl
    · intro e he
      simp only [start, hnew, he]
      rfl
  · intro e hnew
    simp [start, hnew, PromiseState.reject]

/-- C16 (amended), applied: a second `start()` on the started instance `threePeers`. -/
theorem start_replaces_running_listener_witness :
    (start sampleEnv threePeers).state.server
      = some { port := 8080, path := "/", bound := false } ∧
    (start sampleEnv threePeers).promise = PromiseState.fulfilled := by
  have h := (start_replaces_running_listener sampleEnv threePeers
    { port := 8080, path := "/", bound := true } rfl).2.1
    { port := 8080, path := "/", bound := false } rfl
  exact ⟨h.1, h.2.2.1 rfl⟩

/-! ## The payload on the wire -/

theorem broadcastLoop_payload (payload : JsValue) (ex : Option String)
    (l : List (String × ClientInfo)) (n : Nat) :
    ∀ id p t, Effect.send id p t ∈ (broadcastLoop payload ex l n).2 → p = payload := by
  intro id p t h
  rw [broadcastLoop_reached] at h
  simp only [List.mem_map] at h
  obtain ⟨e, _, he⟩ := h
  injection he with _ h2 _
  exact h2.symm

/-- C17: every payload `sendTo` or `broadcast` hands to `send` is the value of
`typeof data === "object" ? JSON.stringify(data) : data`: the string itself for a string,
the result of `JSON.stringify` for an object or an array; `sendTo` hands it to the socket of
`id` only, and all the `send` calls of one `broadcast` carry the same payload. -/
theorem wire_payload (env : Env) (st : ServerState) (id : String) (data : JsValue)
    (ex : Option String) :
    (∀ cid p t, Effect.send cid p t ∈ (sendTo env id data st).effects →
      cid = id ∧ serialize env data = .ok p) ∧
    (∀ cid p t, Effect.send cid p t ∈ (broadcast env data ex st).effects →
      serialize env data = .ok p) ∧
    (∀ cid1 p1 t1 cid2 p2 t2, Effect.send cid1 p1 t1 ∈ (broadcast env data ex st).effects →
      Effect.send cid2 p2 t2 ∈ (broadcast env data ex st).effects → p1 = p2) ∧
    (∀ text, serialize env (JsValue.string text) = .ok (JsValue.string text)) ∧
    (∀ fields, serialize env (JsValue.object fields) = env.stringify (JsValue.object fields)) ∧
    (∀ items, serialize env (JsValue.array items) = env.stringify (JsValue.array items)) := by
  have hb : ∀ cid p t, Effect.send cid p t ∈ (broadcast env data ex st).effects →
      serialize env data = .ok p := by
    intro cid p t h
    unfold broadcast at h
    cases hs : serialize env data with
    | error e =>
      rw [hs] at h
      simp at h
    | ok payload =>
      rw [hs] at h
      simp only at h
      rw [broadcastLoop_payload payload ex st.clients 0 cid p t h]
  refine ⟨?_, hb, ?_, fun _ => rfl, fun _ => rfl, fun _ => rfl⟩
  · intro cid p t h
    unfold sendTo at h
    cases hg : mapGet st.clients id with
    | none =>
      rw [hg] at h
      simp at h
    | some c =>
      rw [hg] at h
      simp only at h
      by_cases ho : c.socket.readyState = ReadyState.OPEN
      · cases hs : serialize env data with
        | error e =>
          rw [hs] at h
          simp [ho] at h
        | ok payload =>
          rw [hs] at h
          by_cases ht : c.socket.sendThrows payload = true
          · simp [ho, ht] at h
            exact ⟨h.1, by rw [h.2.1]⟩
          · simp [ho, ht] at h
            exact ⟨h.1, by rw [h.2.1]⟩
      · simp [ho] at h
  · intro cid1 p1 t1 cid2 p2 t2 h1 h2
    have e1 := hb cid1 p1 t1 h1
    have e2 := hb cid2 p2 t2 h2
    rw [e1] at e2
    injection e2

/-- C17, applied: the string `"hi"` goes out as it is; an object goes out as the text
`JSON.stringify` returned for it. -/
theorem wire_payload_witness :
    (sendTo sampleEnv "a" (JsValue.string "hi") threePeers).effects
      = [Effect.send "a" (JsValue.string "hi") false] ∧
    (sendTo sampleEnv "a" (JsValue.object []) threePeers).effects
      = [Effect.send "a" (JsValue.string "{}") false] ∧
    serialize sampleEnv (JsValue.string "hi") = .ok (JsValue.string "hi") :=
  ⟨rfl, rfl, (wire_payload sampleEnv threePeers "a" (JsValue.string "hi") none).2.2.2.1 "hi"⟩

/-! ## What the registry operations leave alone -/

theorem mapSet_split {V : Type} (m : List (String × V)) (k : String) (v : V)
    (h : mapGet m k = some v) :
    ∃ pre post, m = pre ++ (k, v) :: post ∧ k ∉ mapKeys pre ∧
      ∀ w, mapSet m k w = pre ++ (k, w) :: post := by
  induction m with
  | nil => cases h
  | cons e rest ih =>
    obtain ⟨k', v'⟩ := e
    by_cases hk : k' = k
    · simp only [mapGet, hk, if_true, Option.some.injEq] at h
      refine ⟨[], rest, by simp [hk, h], by simp [mapKeys], ?_⟩
      intro w
      simp [mapSet, hk]
    · simp only [mapGet, hk, if_false] at h
      obtain ⟨pre, post, h1, h2, h3⟩ := ih h
      refine ⟨(k', v') :: pre, post, by simp [h1], ?_, ?_⟩
      · simp only [mapKeys, List.map_cons, List.mem_cons, not_or]
        exact ⟨fun hkk => hk hkk.symm, h2⟩
      · intro w
        simp [mapSet, hk, h3 w]

/-- C18: `setClientMetadata(id, patch)` on a registered id replaces the metadata of the
entry of `id` and nothing else: the registry is the same list of entries, in the same order,
with the same socket, address and connect time for `id` and every other entry as it was, and
the other fields of the instance are untouched; `sendTo` and `broadcast` return the instance
as it was, and so do the read accessors `getClientCount`, `getClientIds` and
`getClientInfo`, here called from a callback body. -/
theorem setClientMetadata_changes_metadata_only (env : Env) (st : ServerState) (id : String)
    (c : ClientInfo) (patch : JsObject) (hreg : mapGet st.clients id = some c) :
    (∃ pre post, st.clients = pre ++ (id, c) :: post ∧ id ∉ mapKeys pre ∧
      (setClientMetadata id patch st).state =
        { st with clients :=
            pre ++ (id, { c with metadata := objSpread c.metadata patch }) :: post }) ∧
    getClientIds (setClientMetadata id patch st).state = getClientIds st ∧
    (∀ other, other ≠ id →
      mapGet (setClientMetadata id patch st).state.clients other = mapGet st.clients other) ∧
    (∀ cid data, (sendTo env cid data st).state = st) ∧
    (∀ data ex, (broadcast env data ex st).state = st) ∧
    (runScript env (Script.getClientCount (fun _ => Script.done)) st).state = st ∧
    (runScript env (Script.getClientIds (fun _ => Script.done)) st).state = st ∧
    (∀ cid, (runScript env (Script.getClientInfo cid (fun _ => Script.done)) st).state = st) := by
  obtain ⟨pre, post, h1, h2, h3⟩ := mapSet_split st.clients id c hreg
  have hstate : (setClientMetadata id patch st).state =
      { st with clients :=
          mapSet st.clients id { c with metadata := objSpread c.metadata patch } } := by
    simp only [setClientMetadata, hreg]
  refine ⟨⟨pre, post, h1, h2, ?_⟩, ?_, ?_, ?_, ?_, rfl, rfl, fun _ => rfl⟩
  · rw [hstate, h3]
  · rw [hstate]
    exact mapKeys_mapSet_of_mapGet _ _ c _ hreg
  · intro other hne
    rw [hstate]
    exact mapGet_mapSet_other _ _ _ _ hne
  · intro cid data
    exact sendTo_state env cid data st
  · intro data ex
    exact broadcast_state env data ex st

/-- C18, applied: setting `{a: 1}` on peer `b` of three. -/
theorem setClientMetadata_changes_metadata_only_witness :
    (setClientMetadata "b" [("a", JsValue.number 1)] threePeers).state =
      { threePeers with clients :=
          [("a", sampleClient false),
           ("b", { sampleClient false with metadata := [("a", JsValue.number 1)] }),
           ("c", sampleClient false)] } ∧
    getClientIds (setClientMetadata "b" [("a", JsValue.number 1)] threePeers).state
      = ["a", "b", "c"] :=
  ⟨rfl, (setClientMetadata_changes_metadata_only sampleEnv threePeers "b" (sampleClient false)
      [("a", JsValue.number 1)] rfl).2.1⟩

/-! ## Inbound messages -/

/-- C14: every callback invoked for an inbound message of connection `clientId` is handed
`clientId`, the message as received in `raw`, and in `message` the value `JSON.parse`
returned for the text of a string or `Buffer` message, or that text itself when `JSON.parse`
threw; the event is published whether or not the text was valid JSON, and an exception
leaves the listener only when a subscribed callback raised it. -/
theorem message_event_payload (env : Env) (dec : Decoding) (st : ServerState)
    (clientId : String) (message : JsValue) :
    (∀ cb d before,
      Effect.callback cb d before ∈ (socketOnMessage env dec clientId message st).effects →
      d = EventData.message clientId (parseMessage dec message) message) ∧
    (∀ text value, message = JsValue.string text → dec.parse text = .ok value →
      parseMessage dec message = value) ∧
    (∀ text e, message = JsValue.string text → dec.parse text = .error e →
      parseMessage dec message = JsValue.string text) ∧
    (∀ bytes value, message = JsValue.buffer bytes →
      dec.parse (dec.bufferToString bytes) = .ok value → parseMessage dec message = value) ∧
    (∀ bytes e, message = JsValue.buffer bytes →
      dec.parse (dec.bufferToString bytes) = .error e →
      parseMessage dec message = JsValue.string (dec.bufferToString bytes)) ∧
    (∀ cbs, mapGet st.eventListeners "message" = some cbs →
      (socketOnMessage env dec clientId message st).result = .ok () →
      invokedCallbacks (socketOnMessage env dec clientId message st).effects = cbs) ∧
    (∀ e, (socketOnMessage env dec clientId message st).result = .error e →
      ∃ cb before,
        (runScript env
          (env.handler cb (EventData.message clientId (parseMessage dec message) message))
          before).result = .error e) := by
  refine ⟨?_, ?_, ?_, ?_, ?_, ?_, ?_⟩
  · intro cb d before h
    exact (triggerEvent_before env _ _ _ cb d before h).1
  · intro text value hm hp
    subst hm
    simp only [parseMessage, hp]
  · intro text e hm hp
    subst hm
    simp only [parseMessage, hp]
  · intro bytes value hm hp
    subst hm
    simp only [parseMessage, hp]
  · intro bytes e hm hp
    subst hm
    simp only [parseMessage, hp]
  · intro cbs hsub hok
    unfold socketOnMessage at hok ⊢
    rw [triggerEvent_of_subscribed env _ _ st cbs hsub] at hok ⊢
    have h := forEachCallback_invoked env
      (EventData.message clientId (parseMessage dec message) message) cbs st
    rw [hok] at h
    exact h
  · intro e herr
    unfold socketOnMessage at herr
    cases hsub : mapGet st.eventListeners "message" with
    | none =>
      simp [triggerEvent, hsub] at herr
    | some cbs =>
      rw [triggerEvent_of_subscribed env _ _ st cbs hsub] at herr
      have h := forEachCallback_invoked env
        (EventData.message clientId (parseMessage dec message) message) cbs st
      rw [herr] at h
      obtain ⟨_, cb, _, before, _, _, h3⟩ := h
      exact ⟨cb, before, h3⟩

/-- C14, applied: the text `{"type":"ping"}` from peer `a` reaches the subscribed callback
decoded, with the text as `raw`; the text `ping` reaches it unchanged. -/
theorem message_event_payload_witness :
    (socketOnMessage sampleEnv sampleDecoding "a"
      (JsValue.string "\x7b\"type\":\"ping\"\x7d") oneMessageSubscriber).effects =
      [Effect.callback 4
        (EventData.message "a" (JsValue.object [("type", JsValue.string "ping")])
          (JsValue.string "\x7b\"type\":\"ping\"\x7d")) oneMessageSubscriber] ∧
    parseMessage sampleDecoding (JsValue.string "ping") = JsValue.string "ping" :=
  ⟨rfl, (message_event_payload sampleEnv sampleDecoding oneMessageSubscriber "a"
      (JsValue.string "ping")).2.2.1 "ping" (JsValue.string "SyntaxError") rfl rfl⟩

/-! ## Tenants -/

/-- C19 fails on the code: the tenant id `constructor` is not a key of the `Tenant` table,
yet `fetchTenantData` resolves to the function inherited from `Object.prototype` under that
name instead of the acme record (an id that no object defines, like `nobody`, does get the
acme record); `tenantMiddleware` attaches that function as the tenant and calls `next`, and
the users route then answers 403. -/
theorem fetchTenantData_inherited_name :
    objGet Tenant "constructor" = none ∧
    fetchTenantData "constructor" = JsValue.func 0 ∧
    fetchTenantData "nobody" =
      tenantRecord "acme" "ACME Corporation" "acme.example.com" "🏢" "light"
        true true true true "#3b82f6" ∧
    tenantMiddleware (JsValue.string "constructor") JsValue.undefined
      = MiddlewareResult.next (JsValue.func 0) ∧
    usersGet (JsValue.string "constructor") JsValue.undefined sampleUsers
      = ⟨403, errorBody "userManagement not enabled"⟩ :=
  ⟨rfl, rfl, rfl, rfl, rfl⟩

/-! ## Users -/

theorem omitPassword_cons (k : String) (v : JsValue) (rest : JsObject) :
    omitPassword ((k, v) :: rest) =
      if k = "password" then omitPassword rest else (k, v) :: omitPassword rest := by
  simp only [omitPassword, List.filter_cons]
  split_ifs <;> simp_all

theorem objGet_omitPassword_password (user : JsObject) :
    objGet (omitPassword user) "password" = none := by
  induction user with
  | nil => rfl
  | cons e rest ih =>
    obtain ⟨k, v⟩ := e
    rw [omitPassword_cons]
    by_cases hk : k = "password"
    · rw [if_pos hk]
      exact ih
    · rw [if_neg hk]
      simp only [objGet, hk, if_false]
      exact ih

theorem objGet_omitPassword_other (user : JsObject) (key : String) (hkey : key ≠ "password") :
    objGet (omitPassword user) key = objGet user key := by
  induction user with
  | nil => rfl
  | cons e rest ih =>
    obtain ⟨k, v⟩ := e
    rw [omitPassword_cons]
    by_cases hk : k = "password"
    · have hne : ¬ k = key := by rw [hk]; exact fun h => hkey h.symm
      rw [if_pos hk]
      simp only [objGet, hne, if_false]
      exact ih
    · rw [if_neg hk]
      by_cases hkk : k = key
      · simp [objGet, hkk]
      · simp [objGet, hkk, ih]

theorem keys_omitPassword (user : JsObject) :
    (omitPassword user).map Prod.fst = (user.map Prod.fst).filter (fun k => k ≠ "password") := by
  induction user with
  | nil => rfl
  | cons e rest ih =>
    obtain ⟨k, v⟩ := e
    rw [omitPassword_cons]
    by_cases hk : k = "password"
    · rw [if_pos hk, ih]
      simp [List.filter_cons, hk]
    · rw [if_neg hk]
      simp [List.filter_cons, hk, ih]

theorem tenantMiddleware_respond (header query : JsValue) (response : Response)
    (h : tenantMiddleware header query = MiddlewareResult.respond response) :
    ∃ status message, response = ⟨status, errorBody message⟩ := by
  unfold tenantMiddleware at h
  simp only at h
  split at h
  · split at h
    · injection h with h
      exact ⟨_, _, h.symm⟩
    · split at h
      · injection h with h
        exact ⟨_, _, h.symm⟩
      · cases h
  · injection h with h
    exact ⟨_, _, h.symm⟩

theorem checkFeature_respond (feature : String) (tenant : JsValue) (response : Response)
    (h : checkFeature feature tenant = MiddlewareResult.respond response) :
    ∃ status message, response = ⟨status, errorBody message⟩ := by
  unfold checkFeature at h
  split at h
  · injection h with h
    exact ⟨_, _, h.symm⟩
  · cases h

/-- C20: the handler of `GET /api/users` answers with the users in list order, each as its
properties other than `password`, in their order and with their values, so that no element
has a `password` key; every answer of the GET route is that list or an `{ error }` body of
the middleware. For a body with truthy `name` and `email` the POST handler answers 201 with
`{ name, email, status: "Pending" }` and appends the record that also holds the generated
password; no answer of the POST route depends on that password. Both routes run their
handler exactly when `tenantMiddleware` and `checkFeature("userManagement")` call `next`,
and answer with the `{ error }` body of the middleware, the `User` list left as it was,
otherwise: the POST route then answers 201 with `{ name, email, status: "Pending" }` and
appends the record with the password. -/
theorem users_responses_hide_password (header query : JsValue) (users : List JsObject)
    (body : JsObject) (password : String) :
    usersGetHandler users
      = ⟨200, JsValue.array (users.map (fun user => JsValue.object (omitPassword user)))⟩ ∧
    (∀ user, objGet (omitPassword user) "password" = none ∧
      (∀ key, key ≠ "password" → objGet (omitPassword user) key = objGet user key) ∧
      (omitPassword user).map Prod.fst
        = (user.map Prod.fst).filter (fun k => k ≠ "password")) ∧
    (usersGet header query users = usersGetHandler users ∨
      ∃ status message, usersGet header query users = ⟨status, errorBody message⟩) ∧
    ((memberOf body "name").truthy = true → (memberOf body "email").truthy = true →
      usersPostHandler body password users =
        (⟨201, JsValue.object
            [("name", memberOf body "name"), ("email", memberOf body "email"),
             ("status", JsValue.string "Pending")]⟩,
         users ++ [[("name", memberOf body "name"), ("email", memberOf body "email"),
                    ("status", JsValue.string "Pending"),
                    ("password", JsValue.string password)]])) ∧
    (∀ other, (usersPost header query body password users).1
      = (usersPost header query body other users).1) ∧
    (∀ tenant kept, tenantMiddleware header query = MiddlewareResult.next tenant →
      checkFeature "userManagement" tenant = MiddlewareResult.next kept →
      usersGet header query users = usersGetHandler users ∧
      usersPost header query body password users = usersPostHandler body password users ∧
      ((memberOf body "name").truthy = true → (memberOf body "email").truthy = true →
        usersPost header query body password users =
          (⟨201, JsValue.object
              [("name", memberOf body "name"), ("email", memberOf body "email"),
               ("status", JsValue.string "Pending")]⟩,
           users ++ [[("name", memberOf body "name"), ("email", memberOf body "email"),
                      ("status", JsValue.string "Pending"),
                      ("password", JsValue.string password)]]))) ∧
    (∀ response, tenantMiddleware header query = MiddlewareResult.respond response →
      usersGet header query users = response ∧
      usersPost header query body password users = (response, users)) ∧
    (∀ tenant response, tenantMiddleware header query = MiddlewareResult.next tenant →
      checkFeature "userManagement" tenant = MiddlewareResult.respond response →
      usersGet header query users = response ∧
      usersPost header query body password users = (response, users)) ∧
    (usersPost header query body password users = usersPostHandler body password users ∨
      ∃ status message,
        usersPost header query body password users = (⟨status, errorBody message⟩, users)) := by
  have homit : ∀ (name email : JsValue) (pw : String),
      omitPassword [("name", name), ("email", email), ("status", JsValue.string "Pending"),
        ("password", JsValue.string pw)]
      = [("name", name), ("email", email), ("status", JsValue.string "Pending")] := by
    intro name email pw
    simp [omitPassword, List.filter_cons]
  have hpost : ∀ other, (usersPostHandler body password users).1
      = (usersPostHandler body other users).1 := by
    intro other
    unfold usersPostHandler
    simp only [homit]
    split <;> rfl
  have hhandler : (memberOf body "name").truthy = true → (memberOf body "email").truthy = true →
      usersPostHandler body password users =
        (⟨201, JsValue.object
            [("name", memberOf body "name"), ("email", memberOf body "email"),
             ("status", JsValue.string "Pending")]⟩,
         users ++ [[("name", memberOf body "name"), ("email", memberOf body "email"),
                    ("status", JsValue.string "Pending"),
                    ("password", JsValue.string password)]]) := by
    intro hname hemail
    simp [usersPostHandler, hname, hemail, homit]
  refine ⟨rfl, ?_, ?_, hhandler, ?_, ?_, ?_, ?_, ?_⟩
  · intro user
    exact ⟨objGet_omitPassword_password user, objGet_omitPassword_other user,
      keys_omitPassword user⟩
  · unfold usersGet
    cases h1 : tenantMiddleware header query with
    | respond response =>
      exact Or.inr (tenantMiddleware_respond header query response h1)
    | next tenant =>
      simp only
      cases h2 : checkFeature "userManagement" tenant with
      | respond response =>
        exact Or.inr (checkFeature_respond _ tenant response h2)
      | next t => exact Or.inl rfl
  · intro other
    unfold usersPost
    cases tenantMiddleware header query with
    | respond response => rfl
    | next tenant =>
      simp only
      cases checkFeature "userManagement" tenant with
      | respond response => rfl
      | next t => exact hpost other
  · intro tenant kept h1 h2
    have hroute : usersPost header query body password users
        = usersPostHandler body password users := by
      simp only [usersPost, h1, h2]
    refine ⟨by simp only [usersGet, h1, h2], hroute, ?_⟩
    intro hname hemail
    rw [hroute]
    exact hhandler hname hemail
  · intro response h1
    exact ⟨by simp only [usersGet, h1], by simp only [usersPost, h1]⟩
  · intro tenant response h1 h2
    exact ⟨by simp only [usersGet, h1, h2], by simp only [usersPost, h1, h2]⟩
  · unfold usersPost
    cases h1 : tenantMiddleware header query with
    | respond response =>
      obtain ⟨status, message, h⟩ := tenantMiddleware_respond header query response h1
      exact Or.inr ⟨status, message, by rw [h]⟩
    | next tenant =>
      simp only
      cases h2 : checkFeature "userManagement" tenant with
      | respond response =>
        obtain ⟨status, message, h⟩ := checkFeature_respond _ tenant response h2
        exact Or.inr ⟨status, message, by rw [h]⟩
      | next t => exact Or.inl rfl

/-- C20, applied: for the tenant `acme` the GET route answers with two stored users without
their passwords, and the POST route answers 201 for Ann with no password while the appended
record holds it; for the tenant `quantum`, which has user management switched off, the POST
route answers 403 and appends nothing. -/
theorem users_responses_hide_password_witness :
    usersGet (JsValue.string "acme") JsValue.undefined sampleUsers =
      ⟨200, JsValue.array
        [JsValue.object
          [("name", JsValue.string "Michael Brown"),
           ("email", JsValue.string "michael.brown@example.com"),
           ("status", JsValue.string "Pending")],
         JsValue.object
          [("name", JsValue.string "Sarah Johnson"),
           ("email", JsValue.string "sarah.johnson@example.com"),
           ("status", JsValue.string "Active")]]⟩ ∧
    usersPost (JsValue.string "acme") JsValue.undefined sampleBody "x7f3k2p9" sampleUsers =
      (⟨201, JsValue.object
          [("name", JsValue.string "Ann"), ("email", JsValue.string "ann@example.com"),
           ("status", JsValue.string "Pending")]⟩,
       sampleUsers ++ [[("name", JsValue.string "Ann"),
                        ("email", JsValue.string "ann@example.com"),
                        ("status", JsValue.string "Pending"),
                        ("password", JsValue.string "x7f3k2p9")]]) ∧
    usersPost (JsValue.string "quantum") JsValue.undefined sampleBody "x7f3k2p9" sampleUsers =
      (⟨403, errorBody "userManagement not enabled"⟩, sampleUsers) :=
  ⟨rfl,
   ((users_responses_hide_password (JsValue.string "acme") JsValue.undefined sampleUsers
      sampleBody "x7f3k2p9").2.2.2.2.2.1 (fetchTenantData "acme") (fetchTenantData "acme")
      rfl rfl).2.2 rfl rfl,
   ((users_responses_hide_password (JsValue.string "quantum") JsValue.undefined sampleUsers
      sampleBody "x7f3k2p9").2.2.2.2.2.2.2.1 (fetchTenantData "quantum")
      ⟨403, errorBody "userManagement not enabled"⟩ rfl rfl).2⟩

end WebSocketServerClass
